import Mathlib

/-!
Verification development for the cask.rs install pipeline.

The Rust sources embedded here are:
  - src/formula.rs      (manifest model, resolver, URL/path renderer)
  - src/util.rs         (iso8601 timestamp helper, HTTP downloader)
  - src/command_install.rs (the install command)

External collaborators (the sha2 crate, the url crate, the tinytemplate
crate, the tar/flate2/zip crates, git, the filesystem and the HTTP client)
are modelled explicitly; each model carries a doc comment naming the
collaborator and the documented behaviour it follows.  All definitions are
computable so that concrete runs evaluate by decide / rfl.
-/

set_option maxRecDepth 4096

/-! ## Bytes and strings -/

/-- Bytes of an ASCII string (model of the UTF-8 bytes of a Rust str for
the ASCII subset; every string hashed or compared in this development is
ASCII). -/
def strBytes (s : String) : List Nat :=
  s.data.map (fun c => c.toNat)

/-! ## SHA-256 (model of the sha2 crate, FIPS 180-4) -/

/-- Word modulus 2 to the 32. -/
def m32 : Nat := 4294967296

/-- Rotate a 32-bit word right by n. -/
def rotr (n x : Nat) : Nat :=
  ((x >>> n) ||| (x <<< (32 - n))) % m32

/-- Bitwise complement of a 32-bit word. -/
def compl32 (x : Nat) : Nat := 4294967295 - x

/-- SHA-256 big sigma 0. -/
def bsig0 (x : Nat) : Nat := (rotr 2 x) ^^^ (rotr 13 x) ^^^ (rotr 22 x)

/-- SHA-256 big sigma 1. -/
def bsig1 (x : Nat) : Nat := (rotr 6 x) ^^^ (rotr 11 x) ^^^ (rotr 25 x)

/-- SHA-256 small sigma 0. -/
def ssig0 (x : Nat) : Nat := (rotr 7 x) ^^^ (rotr 18 x) ^^^ (x >>> 3)

/-- SHA-256 small sigma 1. -/
def ssig1 (x : Nat) : Nat := (rotr 17 x) ^^^ (rotr 19 x) ^^^ (x >>> 10)

/-- SHA-256 round constants. -/
def sha256K : List Nat :=
  [1116352408, 1899447441, 3049323471, 3921009573, 961987163,
   1508970993, 2453635748, 2870763221, 3624381080, 310598401,
   607225278, 1426881987, 1925078388, 2162078206, 2614888103,
   3248222580, 3835390401, 4022224774, 264347078, 604807628,
   770255983, 1249150122, 1555081692, 1996064986, 2554220882,
   2821834349, 2952996808, 3210313671, 3336571891, 3584528711,
   113926993, 338241895, 666307205, 773529912, 1294757372,
   1396182291, 1695183700, 1986661051, 2177026350, 2456956037,
   2730485921, 2820302411, 3259730800, 3345764771, 3516065817,
   3600352804, 4094571909, 275423344, 430227734, 506948616,
   659060556, 883997877, 958139571, 1322822218, 1537002063,
   1747873779, 1955562222, 2024104815, 2227730452, 2361852424,
   2428436474, 2756734187, 3204031479, 3329325298]

/-- State of the SHA-256 compression function: eight 32-bit words. -/
structure Sha8 where
  a : Nat
  b : Nat
  c : Nat
  d : Nat
  e : Nat
  f : Nat
  g : Nat
  h : Nat
deriving DecidableEq

/-- Initial SHA-256 hash value. -/
def sha256H0 : Sha8 :=
  ⟨1779033703, 3144134277, 1013904242, 2773480762,
   1359893119, 2600822924, 528734635, 1541459225⟩

/-- One SHA-256 compression round; kw is the round constant plus schedule word. -/
def sha256Round (s : Sha8) (kw : Nat × Nat) : Sha8 :=
  let ch := (s.e &&& s.f) ^^^ ((compl32 s.e) &&& s.g)
  let maj := (s.a &&& s.b) ^^^ (s.a &&& s.c) ^^^ (s.b &&& s.c)
  let t1 := (s.h + bsig1 s.e + ch + kw.1 + kw.2) % m32
  let t2 := (bsig0 s.a + maj) % m32
  ⟨(t1 + t2) % m32, s.a, s.b, s.c, (s.d + t1) % m32, s.e, s.f, s.g⟩

/-- Extend the 16-word message schedule by one word. -/
def scheduleStep (w : List Nat) : List Nat :=
  let n := w.length
  let x := (ssig1 (w.getD (n - 2) 0) + w.getD (n - 7) 0
            + ssig0 (w.getD (n - 15) 0) + w.getD (n - 16) 0) % m32
  w ++ [x]

/-- Apply scheduleStep the given number of times. -/
def extendSchedule : Nat → List Nat → List Nat
  | 0, w => w
  | n + 1, w => extendSchedule n (scheduleStep w)

/-- Process one 16-word block. -/
def sha256Block (s : Sha8) (block : List Nat) : Sha8 :=
  let w := extendSchedule 48 block
  let r := (sha256K.zip w).foldl sha256Round s
  ⟨(s.a + r.a) % m32, (s.b + r.b) % m32, (s.c + r.c) % m32, (s.d + r.d) % m32,
   (s.e + r.e) % m32, (s.f + r.f) % m32, (s.g + r.g) % m32, (s.h + r.h) % m32⟩

/-- Big-endian byte list of a value, fixed number of bytes. -/
def toBEBytes : Nat → Nat → List Nat
  | 0, _ => []
  | d + 1, v => toBEBytes d (v / 256) ++ [v % 256]

/-- SHA-256 padding: append 0x80, zeros, and the 64-bit bit length. -/
def sha256Pad (msg : List Nat) : List Nat :=
  let len := msg.length
  let zeros := (120 - ((len + 1) % 64)) % 64
  msg ++ [0x80] ++ List.replicate zeros 0 ++ toBEBytes 8 (8 * len)

/-- Split a list into chunks of the given size (fuel-bounded). -/
def chunksOfAux (sz : Nat) : Nat → List Nat → List (List Nat)
  | 0, _ => []
  | _, [] => []
  | fuel + 1, l => l.take sz :: chunksOfAux sz fuel (l.drop sz)

/-- Split a list into chunks of the given size. -/
def chunksOf (sz : Nat) (l : List Nat) : List (List Nat) :=
  chunksOfAux sz l.length l

/-- Combine four bytes into a big-endian 32-bit word. -/
def word32OfBytes (bs : List Nat) : Nat :=
  bs.foldl (fun acc b => acc * 256 + b) 0

/-- SHA-256 digest of a byte list, as the eight final hash words. -/
def sha256Words (msg : List Nat) : List Nat :=
  let blocks := chunksOf 64 (sha256Pad msg)
  let final := blocks.foldl (fun s blk => sha256Block s ((chunksOf 4 blk).map word32OfBytes)) sha256H0
  [final.a, final.b, final.c, final.d, final.e, final.f, final.g, final.h]

/-- Hex digit character, lowercase. -/
def hexDigitChar (n : Nat) : Char :=
  if n < 10 then Char.ofNat (48 + n) else Char.ofNat (87 + n)

/-- Fixed-width lowercase hex rendering. -/
def toHexFixed : Nat → Nat → List Char
  | 0, _ => []
  | d + 1, v => toHexFixed d (v / 16) ++ [hexDigitChar (v % 16)]

/-- Lowercase hex SHA-256 digest of a byte list (model of
format bang with colon-x on a finalized sha2 Sha256 hasher). -/
def sha256Hex (msg : List Nat) : String :=
  ⟨(sha256Words msg).foldr (fun w acc => toHexFixed 8 w ++ acc) []⟩

/-! ## List-of-char string helpers

Own structural implementations are used instead of the String library
loops so that every theorem evaluates inside the kernel. -/

/-- Does the list end with the given suffix list. -/
def listEndsWith (l suf : List Char) : Bool :=
  decide (l.drop (l.length - suf.length) = suf) && decide (suf.length ≤ l.length)

/-- Does the string end with the given suffix (model of str::ends_with). -/
def endsWithS (s suf : String) : Bool :=
  listEndsWith s.data suf.data

/-- ASCII whitespace test (covers every character trimmed in this
development; model of char::is_whitespace restricted to ASCII). -/
def isWsp (c : Char) : Bool :=
  c = ' ' || c = '\t' || c = '\n' || c = '\r'

/-- Trim ASCII whitespace from both ends (model of str::trim). -/
def trimS (s : String) : String :=
  ⟨((s.data.dropWhile isWsp).reverse.dropWhile isWsp).reverse⟩

/-- Split a character list at every occurrence of the separator char. -/
def splitChar (sep : Char) : List Char → List (List Char)
  | [] => [[]]
  | x :: xs =>
    match splitChar sep xs with
    | [] => if x = sep then [[], []] else [[x]]
    | h :: t => if x = sep then [] :: h :: t else (x :: h) :: t

/-- Split a character list at the first colon-slash-slash, returning the
part before and the part after it. -/
def splitSchemeRest : List Char → Option (List Char × List Char)
  | [] => none
  | c :: cs =>
    if c = ':' then
      match cs with
      | '/' :: '/' :: rest => some ([], rest)
      | _ => (splitSchemeRest cs).map (fun p => (c :: p.1, p.2))
    else
      (splitSchemeRest cs).map (fun p => (c :: p.1, p.2))

/-- Lookup in an association list of strings. -/
def lookupPairs (k : String) : List (String × String) → Option String
  | [] => none
  | p :: rest => if p.1 = k then some p.2 else lookupPairs k rest

/-- Is the list of chars a contiguous sublist of the second list. -/
def listHasSub (sub : List Char) : List Char → Bool
  | [] => decide (sub = [])
  | c :: cs => decide ((c :: cs).take sub.length = sub) || listHasSub sub (cs)

/-- Substring test on strings. -/
def strHasSub (s sub : String) : Bool :=
  listHasSub sub.data s.data

/-! ## Url model (model of the url crate)

Url::parse succeeds on absolute URLs with an explicit scheme and fails on
scheme-less strings such as plain package identifiers; for the special
http/https schemes, path_segments yields the slash-separated segments of
the path, query and fragment excluded.  Only the behaviour on the inputs
exercised by this repository (plain identifiers, http(s) URLs with a host
and path) is modelled. -/

/-- Parsed URL: scheme and path segments. -/
structure UrlM where
  scheme : String
  segments : List String
deriving DecidableEq

/-- Is the char acceptable inside a URL scheme. -/
def isSchemeChar (c : Char) : Bool :=
  c.isAlpha || c.isDigit || c = '+' || c = '-' || c = '.'

/-- Model of Url::parse: requires a nonempty alphabetic-led scheme before
a colon-slash-slash and a nonempty remainder (host).  Query and fragment
are cut before the path is split into segments. -/
def parseUrl? (s : String) : Option UrlM :=
  match splitSchemeRest s.data with
  | none => none
  | some (schemeCs, rest) =>
    if schemeCs ≠ [] && schemeCs.all isSchemeChar
        && (schemeCs.headD 'a').isAlpha && rest ≠ [] then
      let cut := rest.takeWhile (fun c => c ≠ '?' && c ≠ '#')
      let parts := splitChar '/' cut
      let segs := (parts.drop 1).map (fun l => String.mk l)
      some ⟨⟨schemeCs.map Char.toLower⟩, if segs = [] then [""] else segs⟩
    else
      none

/-! ## TinyTemplate model (model of the tinytemplate crate)

Templates substitute brace-delimited dotted value paths looked up in the
serialized context; an unknown path or an unclosed brace is a render
error.  Only the plain-substitution fragment used by the formulas is
modelled; blocks and escapes are not. -/

/-- Opening brace character. -/
def lbrace : Char := Char.ofNat 123

/-- Closing brace character. -/
def rbrace : Char := Char.ofNat 125

/-- Take chars until the given one; also return the rest after it. -/
def takeUntilChar (stop : Char) : List Char → Option (List Char × List Char)
  | [] => none
  | c :: cs =>
    if c = stop then some ([], cs)
    else (takeUntilChar stop cs).map (fun p => (c :: p.1, p.2))

/-- Core render loop (fuel-bounded on the remaining char count). -/
def renderAux (ctx : List String → Option String) : Nat → List Char → Option (List Char)
  | 0, cs => if cs = [] then some [] else none
  | _ + 1, [] => some []
  | fuel + 1, c :: cs =>
    if c = lbrace then
      match takeUntilChar rbrace cs with
      | none => none
      | some (inside, rest) =>
        let path := (splitChar '.' inside).map (fun l => trimS ⟨l⟩)
        match ctx path with
        | none => none
        | some v => (renderAux ctx fuel rest).map (fun r => v.data ++ r)
    else
      (renderAux ctx fuel cs).map (fun r => c :: r)

/-- Render a template against a context lookup; none on any template
error (unknown value path, unclosed brace). -/
def renderTemplate (tpl : String) (ctx : List String → Option String) : Option String :=
  (renderAux ctx (tpl.data.length + 1) tpl.data).map String.mk

/-! ## Filesystem model

Paths are plain strings; the store is an association list from path to
content.  Creating a file truncates or creates; the symlink syscall (POSIX
symlink(2), and CreateSymbolicLink on Windows) fails when the destination
name already exists, which the model reflects. -/

/-- A filesystem entry: text file, byte file, or symbolic link. -/
inductive FData where
  | text (s : String)
  | bytes (b : List Nat)
  | link (target : String)
deriving DecidableEq

/-- The filesystem: an association list from absolute path to entry. -/
structure FS where
  files : List (String × FData)
deriving DecidableEq

/-- Write (create or truncate) the entry at a path. -/
def FS.write (fs : FS) (p : String) (d : FData) : FS :=
  ⟨(p, d) :: fs.files.filter (fun e => decide (e.1 ≠ p))⟩

/-- Read the entry at a path. -/
def FS.get (fs : FS) (p : String) : Option FData :=
  (fs.files.find? (fun e => decide (e.1 = p))).map (fun e => e.2)

/-! ## Host model

The Rust sources dispatch on cfg target_os / target_arch / target_family;
the embedding makes the host an explicit parameter. -/

/-- Host operating system (cfg target_os). -/
inductive HostOS where
  | macos
  | windows
  | linux
  | other
deriving DecidableEq

/-- Host CPU architecture (cfg target_arch). -/
inductive HostArch where
  | x86
  | x86_64
  | arm
  | armv7
  | aarch64
  | mips
  | mips64
  | mips64el
  | riscv64
  | other
deriving DecidableEq

/-- Host parameters of one compiled binary. -/
structure Host where
  os : HostOS
  arch : HostArch
deriving DecidableEq

/-! ## formula.rs: data model -/

/-- Extension names of the extractor collaborator
(extractor::Extension; the legal values are listed in the
ResourceTargetDetail comment in formula.rs). -/
inductive ExtensionE where
  | TarGz
  | Tgz
  | Tar
  | Zip
deriving DecidableEq

/-- The extension as a string (extractor::Extension::as_str). -/
def ExtensionE.as_str : ExtensionE → String
  | .TarGz => ".tar.gz"
  | .Tgz => ".tgz"
  | .Tar => ".tar"
  | .Zip => ".zip"

/-- Package block of a formula (formula.rs struct Package). -/
structure Package where
  name : String
  bin : String
  repository : String
  description : String
  versions : Option (List String)
  authors : Option (List String)
  keywords : Option (List String)
  license : Option String
deriving DecidableEq

/-- Detailed resource target (formula.rs struct ResourceTargetDetail). -/
structure ResourceTargetDetail where
  url : String
  checksum : Option String
  extension : Option ExtensionE
  path : Option String
deriving DecidableEq

/-- Executable resource target (formula.rs struct ResourceTargetExecutable). -/
structure ResourceTargetExecutable where
  executable : String
  checksum : Option String
deriving DecidableEq

/-- Resource target variants (formula.rs enum ResourceTarget). -/
inductive ResourceTarget where
  | Detailed (d : ResourceTargetDetail)
  | Executable (e : ResourceTargetExecutable)
  | Simple (s : String)
deriving DecidableEq

/-- Per-OS platform block (formula.rs struct Platform). -/
structure Platform where
  x86 : Option ResourceTarget
  x86_64 : Option ResourceTarget
  arm : Option ResourceTarget
  armv7 : Option ResourceTarget
  aarch64 : Option ResourceTarget
  mips : Option ResourceTarget
  mips64 : Option ResourceTarget
  mips64el : Option ResourceTarget
  riscv64 : Option ResourceTarget
deriving DecidableEq

/-- Cask metadata block (formula.rs struct Cask). -/
structure CaskInfo where
  name : String
  created_at : String
  version : String
  repository : String
deriving DecidableEq

/-- A parsed formula (formula.rs struct Formula; the dependencies and hook
fields are opaque to the install core and are modelled as unit options). -/
structure Formula where
  file_content : String
  repository : String
  filepath : String
  cask : Option CaskInfo
  package : Package
  context : Option (List (String × String))
  windows : Option Platform
  darwin : Option Platform
  linux : Option Platform
  dependencies : Option Unit
  hook : Option Unit
deriving DecidableEq

/-- Download target derived by the renderer (formula.rs struct
DownloadTarget). -/
structure DownloadTarget where
  url : String
  path : String
  checksum : Option String
  ext : String
  executable : Bool
deriving DecidableEq

/-- Errors surfaced by the formula.rs functions (eyre reports, classified
by the message producing them). -/
inductive FErr where
  | unsupportedPlatform
  | templateErr
  | urlParseErr
  | notExist
  | unsupportedScheme
  | notFound
  | notValidFormula
  | gitCloneFailed
  | loadFailed
deriving DecidableEq

/-! ## formula.rs: loader and resolver -/

/-- The serde-visible part of a formula document, produced by the toml
collaborator when parsing file content. -/
structure ParsedDoc where
  cask : Option CaskInfo
  package : Package
  context : Option (List (String × String))
  windows : Option Platform
  darwin : Option Platform
  linux : Option Platform
  dependencies : Option Unit
  hook : Option Unit
deriving DecidableEq

/-- Model of formula::new given the file content already read: toml-parse
the content (collaborator oracle) and fill file_content, repository and
filepath from the inputs (formula.rs lines 106-136). -/
def formula_new (parseToml : String → Except Unit ParsedDoc)
    (content : String) (filepath : String) (repo : String) : Except Unit Formula :=
  match parseToml content with
  | .error e => .error e
  | .ok p =>
      .ok ⟨content, repo, filepath, p.cask, p.package, p.context,
           p.windows, p.darwin, p.linux, p.dependencies, p.hook⟩

/-- Git-URL derivation for a plain package identifier
(formula.rs get_formula_git_url, lines 146-148). -/
def get_formula_git_url (package_name : String) : String :=
  "https://" ++ package_name ++ ".git"

/-- Model of the git collaborator used by the resolver: existence check
and clone outcome.  A clone outcome is an error, or success together with
the content of Cask.toml at the working-copy root when that file exists. -/
structure GitOracle where
  is_exist : String → Bool
  cloneResult : String → Except Unit (Option String)

/-- Decidable equality of Except outcomes. -/
instance {ε α : Type} [DecidableEq ε] [DecidableEq α] : DecidableEq (Except ε α) := fun a b =>
  match a, b with
  | .error x, .error y =>
      if h : x = y then .isTrue (by rw [h])
      else .isFalse (fun hh => by cases hh; exact h rfl)
  | .error _, .ok _ => .isFalse (fun hh => by cases hh)
  | .ok _, .error _ => .isFalse (fun hh => by cases hh)
  | .ok x, .ok y =>
      if h : x = y then .isTrue (by rw [h])
      else .isFalse (fun hh => by cases hh; exact h rfl)

/-- Result of the resolver: the outcome, and whether the clone working
directory still exists when the function returns. -/
structure FetchOut where
  res : Except FErr Formula
  cloneDirPresent : Bool
deriving DecidableEq

/-- Model of fetch_with_git_url (formula.rs lines 236-304): clone the
repository (shallow options are the collaborator's concern), fail with
NotAFormula when the working copy has no Cask.toml, load the formula, and
remove the working copy in temp mode after a load attempt.  The
cloneDirPresent flag records whether the clone directory exists at return
(a failed clone leaves no directory). -/
def fetch_with_git_url (g : GitOracle) (parseToml : String → Except Unit ParsedDoc)
    (tmpRoot : String) (caskPkgRepoDir : String) (unixTime : Nat)
    (temp : Bool) (_package_name : String) (git_url : String) : FetchOut :=
  let formula_cloned_dir : String :=
    if temp then tmpRoot ++ "/cask_formula_" ++ toString unixTime
    else caskPkgRepoDir
  let cask_file_path := formula_cloned_dir ++ "/Cask.toml"
  match g.cloneResult git_url with
  | .error _ => ⟨.error .gitCloneFailed, false⟩
  | .ok none =>
      -- publishing hint printed; the directory is not removed on this path
      ⟨.error .notValidFormula, true⟩
  | .ok (some content) =>
      match formula_new parseToml content cask_file_path git_url with
      | .ok r => ⟨.ok r, !temp⟩
      | .error _ => ⟨.error .loadFailed, !temp⟩

/-- Model of fetch (formula.rs lines 163-209): explicit http(s) repository
URLs are used directly, other schemes are rejected; otherwise the built-in
directory is consulted (filesystem collaborator oracle), and finally the
derived well-known git URL is cloned when the repository exists. -/
def fetch (g : GitOracle) (parseToml : String → Except Unit ParsedDoc)
    (buildIn : Except Unit (Option Formula))
    (tmpRoot : String) (caskPkgRepoDir : String) (unixTime : Nat)
    (temp : Bool) (package_name : String) : FetchOut :=
  match parseUrl? package_name with
  | some u =>
      if u.scheme = "http" ∨ u.scheme = "https" then
        if g.is_exist package_name then
          fetch_with_git_url g parseToml tmpRoot caskPkgRepoDir unixTime temp
            package_name package_name
        else ⟨.error .notExist, false⟩
      else ⟨.error .unsupportedScheme, false⟩
  | none =>
      match buildIn with
      | .error _ => ⟨.error .loadFailed, false⟩
      | .ok (some f) => ⟨.ok f, false⟩
      | .ok none =>
          let package_repo_url := get_formula_git_url package_name
          if g.is_exist package_repo_url then
            fetch_with_git_url g parseToml tmpRoot caskPkgRepoDir unixTime temp
              package_name package_repo_url
          else ⟨.error .notFound, false⟩

/-! ## formula.rs: target selection and URL rendering -/

/-- OS block selection (formula.rs Formula::get_current_os, lines
307-317; the cfg target_os dispatch is the host parameter). -/
def Formula.get_current_os (host : Host) (f : Formula) : Option Platform :=
  match host.os with
  | .macos => f.darwin
  | .windows => f.windows
  | .linux => f.linux
  | .other => none

/-- Architecture entry selection (formula.rs Formula::get_current_arch,
lines 318-344). -/
def Formula.get_current_arch (host : Host) (f : Formula) : Option ResourceTarget :=
  match f.get_current_os host with
  | none => none
  | some os =>
    match host.arch with
    | .x86 => os.x86
    | .x86_64 => os.x86_64
    | .arm => os.arm
    | .armv7 => os.armv7
    | .aarch64 => os.aarch64
    | .mips => os.mips
    | .mips64 => os.mips64
    | .mips64el => os.mips64el
    | .riscv64 => os.riscv64
    | .other => none

/-- Template context lookup for the URLTemplateContext serialization used
by get_current_download_url (formula.rs lines 351-363): version, the
package fields, and the optional user context map, addressed by dotted
path.  Non-string package fields are not addressable. -/
def formulaCtxLookup (version : String) (pkg : Package)
    (ctx : Option (List (String × String))) : List String → Option String
  | ["version"] => some version
  | ["package", "name"] => some pkg.name
  | ["package", "bin"] => some pkg.bin
  | ["package", "repository"] => some pkg.repository
  | ["package", "description"] => some pkg.description
  | ["context", k] => match ctx with
    | none => none
    | some m => lookupPairs k m
  | _ => none

/-- Extension inference from the rendered URL (formula.rs
get_ext_name_from_url closure, lines 377-399): parse the URL, take the
last path segment, and match the suffixes .tar.gz, .tgz, .tar, .zip in
that order, defaulting to .tar.gz. -/
def get_ext_name_from_url (renderer_url : String) : Except FErr String :=
  match parseUrl? renderer_url with
  | none => .error .urlParseErr
  | some u =>
    let default_ext := ExtensionE.TarGz
    let filename := u.segments.getLastD default_ext.as_str
    if endsWithS filename ExtensionE.TarGz.as_str then .ok ExtensionE.TarGz.as_str
    else if endsWithS filename ExtensionE.Tgz.as_str then .ok ExtensionE.Tgz.as_str
    else if endsWithS filename ExtensionE.Tar.as_str then .ok ExtensionE.Tar.as_str
    else if endsWithS filename ExtensionE.Zip.as_str then .ok ExtensionE.Zip.as_str
    else .ok default_ext.as_str

/-- URL and path rendering for the selected target (formula.rs
Formula::get_current_download_url, lines 350-453).  The host family for
the Executable extension (cfg unix / cfg windows) is derived from the
host OS. -/
def Formula.get_current_download_url (host : Host) (f : Formula) (version : String) :
    Except FErr DownloadTarget :=
  match f.get_current_arch host with
  | none => .error .unsupportedPlatform
  | some resource_target =>
    let ctx := formulaCtxLookup version f.package f.context
    let download_url :=
      match resource_target with
      | .Detailed detail => detail.url
      | .Executable exe => exe.executable
      | .Simple url => url
    match renderTemplate download_url ctx with
    | none => .error .templateErr
    | some renderer_url =>
      let path0 :=
        (match resource_target with
         | .Detailed arch => arch.path
         | .Executable _ => none
         | .Simple _ => none).getD "/"
      let path1 := if trimS path0 = "" then "/" else path0
      match renderTemplate path1 ctx with
      | none => .error .templateErr
      | some path2 =>
        let extRes : Except FErr String :=
          match resource_target with
          | .Detailed arch =>
            match arch.extension with
            | some e => .ok e.as_str
            | none => get_ext_name_from_url renderer_url
          | .Executable _ =>
            .ok (if host.os = .windows then ".exe" else "")
          | .Simple _ => get_ext_name_from_url renderer_url
        match extRes with
        | .error e => .error e
        | .ok ext_name =>
          let checksum :=
            match resource_target with
            | .Detailed arch => arch.checksum
            | .Executable arch => arch.checksum
            | .Simple _ => none
          .ok ⟨renderer_url, trimS path2, checksum, ext_name,
               match resource_target with
               | .Executable _ => true
               | _ => false⟩

/-! ## util.rs: downloader -/

/-- Model of the reqwest response: status code, the optional
Content-Length, and the asynchronous body stream as a list of chunk
outcomes (each chunk either bytes or a read error). -/
structure HttpResp where
  status : Nat
  contentLength : Option Nat
  chunks : List (Except Unit (List Nat))

/-- Downloader failures (util.rs download, lines 21-62): the status
assertion (a panic in the source, modelled as a failure outcome), the
missing Content-Length report, and the chunk read error.  The chunk write
error of the source cannot occur in the filesystem model, whose writes
are total. -/
inductive DlErr where
  | statusNot200
  | noContentLength
  | chunkErr
deriving DecidableEq

/-- Downloader result: final filesystem, outcome, and the progress-bar
positions reported (newest last). -/
structure DlOut where
  fs : FS
  res : Except DlErr Unit
  positions : List Nat
deriving DecidableEq

/-- The download stream loop (util.rs lines 44-53): write each chunk,
advance the progress position by the chunk length capped at the total,
and abort on a chunk read error.  The file holds the bytes written so
far on every path. -/
def dlLoop (filepath : String) (total : Nat) :
    List (Except Unit (List Nat)) → FS → List Nat → Nat → List Nat → DlOut
  | [], fs, _, _, poss => ⟨fs, .ok (), poss.reverse⟩
  | c :: rest, fs, written, downloaded, poss =>
    match c with
    | .error _ => ⟨fs, .error .chunkErr, poss.reverse⟩
    | .ok chunk =>
      let written2 := written ++ chunk
      let fs2 := fs.write filepath (.bytes written2)
      let downloaded2 := min (downloaded + chunk.length) total
      dlLoop filepath total rest fs2 written2 downloaded2 (downloaded2 :: poss)

/-- Model of util::download (util.rs lines 21-62): check the status
(assert_eq), require a Content-Length to size the progress bar, create
(truncate) the destination file, then stream the body chunks to it. -/
def download (resp : HttpResp) (filepath : String) (fs : FS) : DlOut :=
  if resp.status ≠ 200 then ⟨fs, .error .statusNot200, []⟩
  else
    match resp.contentLength with
    | none => ⟨fs, .error .noContentLength, []⟩
    | some total_size =>
      let fs1 := fs.write filepath (.bytes [])
      dlLoop filepath total_size resp.chunks fs1 [] 0 []

/-- Join the chunk list when every chunk is bytes; none when any chunk is
a read error. -/
def chunksJoined : List (Except Unit (List Nat)) → Option (List Nat)
  | [] => some []
  | .error _ :: _ => none
  | .ok c :: rest => (chunksJoined rest).map (fun r => c ++ r)

/-! ## command_install.rs: the install command

This source file is an earlier revision than formula.rs: it carries its
own view of the formula document (a Package with a version field and a
plain versions list, per-arch entries that are plain records with a url
field) and does not call the formula.rs resolver or renderer.  The
embedding mirrors that view. -/

/-- Package block as read by the install command (the fields accessed in
command_install.rs: name, bin, version, versions). -/
structure IPackage where
  name : String
  bin : String
  version : Option String
  versions : List String
deriving DecidableEq

/-- Per-architecture entry as accessed by the install command (field url,
command_install.rs line 217). -/
structure IArch where
  url : String
deriving DecidableEq

/-- Per-OS block as accessed by the install command (lines 155-171). -/
structure IPlatform where
  x86 : Option IArch
  x86_64 : Option IArch
  arm : Option IArch
  aarch64 : Option IArch
  mips : Option IArch
  mips64 : Option IArch
  mips64el : Option IArch
deriving DecidableEq

/-- Formula document as read by the install command. -/
structure IFormula where
  package : IPackage
  darwin : Option IPlatform
  windows : Option IPlatform
  linux : Option IPlatform
deriving DecidableEq

/-- Errors surfaced by the install command (eyre reports, classified by
the message producing them). -/
inductive IErr where
  | gitCloneFailed
  | notValidFormula
  | formulaLoadFailed
  | notSupportSystem
  | notSupportArch
  | noHomeDir
  | versionNotFound
  | noVersions
  | templateErr
  | downloadFailed (e : DlErr)
  | stagedFileMissing
  | archiveErr
  | binaryNotFound
  | symlinkFailed
deriving DecidableEq

/-- A tar archive entry as exposed by the tar crate: its path inside the
archive and its bytes. -/
structure TarEntry where
  path : String
  bytes : List Nat
deriving DecidableEq

/-- A zip archive entry as exposed by the zip crate: full name, file
flag, bytes, and the optional stored unix mode. -/
structure ZipEntry where
  name : String
  isFile : Bool
  bytes : List Nat
  unixMode : Option Nat
deriving DecidableEq

/-- Basename of a path (model of std::path::Path::file_name: the last
non-empty component, none when the path is empty or ends in dot-dot). -/
def pathFileName (p : String) : Option String :=
  let comps := (splitChar '/' p.data).map String.mk
  let comps := comps.filter (fun c => c ≠ "" && c ≠ ".")
  match comps.getLast? with
  | none => none
  | some last => if last = ".." then none else some last

/-- Version selection (command_install.rs lines 178-202): an explicit
version must appear in versions; else the package default version must
appear in versions; else the first listed version; empty list fails. -/
def downloadVersionOf (version : Option String) (pkg : IPackage) : Except IErr String :=
  match version with
  | some v =>
    if pkg.versions.contains v then .ok v else .error .versionNotFound
  | none =>
    match pkg.version with
    | some v => if pkg.versions.contains v then .ok v else .error .versionNotFound
    | none =>
      if pkg.versions.isEmpty then .error .noVersions
      else .ok (pkg.versions.headD "")

/-- Template context lookup of the install command (struct
URLTemplateContext, command_install.rs lines 27-32): only name, bin and
version are exposed. -/
def installCtxLookup (pkg : IPackage) (version : String) : List String → Option String
  | ["name"] => some pkg.name
  | ["bin"] => some pkg.bin
  | ["version"] => some version
  | _ => none

/-- OS block selection of the install command (lines 67-79). -/
def selectTargetI (os : HostOS) (f : IFormula) : Option IPlatform :=
  match os with
  | .macos => f.darwin
  | .windows => f.windows
  | .linux => f.linux
  | .other => none

/-- Architecture entry selection of the install command (lines 155-171;
architectures outside the listed seven yield none). -/
def selectArchI (arch : HostArch) (t : IPlatform) : Option IArch :=
  match arch with
  | .x86 => t.x86
  | .x86_64 => t.x86_64
  | .arm => t.arm
  | .aarch64 => t.aarch64
  | .mips => t.mips
  | .mips64 => t.mips64
  | .mips64el => t.mips64el
  | _ => none

/-- Binary name on the host (command_install.rs lines 226-230). -/
def binNameOf (os : HostOS) (bin : String) : String :=
  if os = .windows then bin ++ ".exe" else bin

/-- The generated manifest header (the format string at
command_install.rs lines 137-145; it ends with the blank line). -/
def caskHeader (package_name : String) (now : String) : String :=
  "# The file is generated by Cask. DO NOT MODIFY IT.\n[cask]\npackage_name = \""
    ++ package_name ++ "\"\ncreated_at = \"" ++ now ++ "\"\n\n"

/-- The first tar entry whose basename equals the binary name (the
extraction loop at command_install.rs lines 243-255). -/
def firstTarMatch (bin_name : String) : List TarEntry → Option TarEntry
  | [] => none
  | e :: rest =>
    match pathFileName e.path with
    | some file_name =>
      if file_name = bin_name then some e else firstTarMatch bin_name rest
    | none => firstTarMatch bin_name rest

/-- The first zip entry that is a file with full name equal to the binary
name (the zip loop at command_install.rs lines 259-280). -/
def firstZipMatch (bin_name : String) : List ZipEntry → Option ZipEntry
  | [] => none
  | e :: rest =>
    if e.isFile && e.name = bin_name then some e else firstZipMatch bin_name rest

/-- The cask root directory (command_install.rs line 101). -/
def cask_dir_of (home_dir : String) : String := home_dir ++ "/.cask"

/-- The publication directory (line 102). -/
def cask_dir_bin_of (home_dir : String) : String := cask_dir_of home_dir ++ "/bin"

/-- The formula store directory (line 103). -/
def cask_dir_formula_of (home_dir : String) : String := cask_dir_of home_dir ++ "/formula"

/-- The per-package directory, named by the package hash (lines 89-94 and
104). -/
def package_dir_of (home_dir package_name : String) : String :=
  cask_dir_formula_of home_dir ++ "/" ++ sha256Hex (strBytes package_name)

/-- The stored manifest path (line 131). -/
def cask_toml_path_of (home_dir package_name : String) : String :=
  package_dir_of home_dir package_name ++ "/Cask.toml"

/-- The staged artifact path (lines 204-206; the name is the version with
a hardcoded .tar.gz suffix). -/
def staged_path_of (home_dir package_name v : String) : String :=
  package_dir_of home_dir package_name ++ "/version/" ++ (v ++ ".tar.gz")

/-- The canonical extracted binary path (line 234). -/
def output_bin_path_of (home_dir package_name bin_name : String) : String :=
  package_dir_of home_dir package_name ++ "/bin/" ++ bin_name

/-- The publication link path (lines 291-293). -/
def link_path_of (home_dir bin_name : String) : String :=
  cask_dir_bin_of home_dir ++ "/" ++ bin_name

/-- Publication (command_install.rs lines 289-293): one symlink call; the
syscall fails when the destination name already exists (POSIX EEXIST /
Windows ERROR_ALREADY_EXISTS), so an existing entry is never replaced. -/
def symlinkStep (fs : FS) (home_dir bin_name output_file_path : String) : FS × Except IErr Unit :=
  match fs.get (link_path_of home_dir bin_name) with
  | some _ => (fs, .error .symlinkFailed)
  | none => (fs.write (link_path_of home_dir bin_name) (.link output_file_path), .ok ())

/-- Collaborator inputs of one install invocation. -/
structure InstallDeps where
  hostOS : HostOS
  hostArch : HostArch
  home : Option String
  tmpDir : String
  unixTime : Nat
  now : String
  clone : Except Unit (Option String)
  parse : String → Except Unit IFormula
  http : String → HttpResp
  tarGzEntries : List Nat → Except Unit (List TarEntry)
  zipEntries : List Nat → Except Unit (List ZipEntry)

/-- Result of one install invocation: the filesystem, the outcome, and
whether the formula clone directory was removed before returning. -/
structure InstallOut where
  fs : FS
  res : Except IErr Unit
  clonedDirRemoved : Bool
deriving DecidableEq

/-- The extraction and publication tail of the install (command_install.rs
lines 224-296): open the staged file, dispatch on the staged file name
suffix, find the binary entry, unpack it, and publish the symlink.
Directory creation and the unix permission transfer for zip entries are
not modelled (the filesystem model has no directories or modes). -/
def extractAndPublish (d : InstallDeps) (fs : FS)
    (tar_file_path tar_file_name : String)
    (bin_name output_file_path home_dir : String) : InstallOut :=
  match fs.get tar_file_path with
  | none => ⟨fs, .error .stagedFileMissing, true⟩
  | some fdata =>
    let tarBytes := match fdata with
      | .bytes b => b
      | .text s => strBytes s
      | .link _ => []
    if endsWithS tar_file_name ".tar.gz" then
      match d.tarGzEntries tarBytes with
      | .error _ => ⟨fs, .error .archiveErr, true⟩
      | .ok entries =>
        match firstTarMatch bin_name entries with
        | none => ⟨fs, .error .binaryNotFound, true⟩
        | some entry =>
          let fs2 := fs.write output_file_path (.bytes entry.bytes)
          let r := symlinkStep fs2 home_dir bin_name output_file_path
          ⟨r.1, r.2, true⟩
    else if endsWithS tar_file_name ".zip" then
      match d.zipEntries tarBytes with
      | .error _ => ⟨fs, .error .archiveErr, true⟩
      | .ok entries =>
        match firstZipMatch bin_name entries with
        | none => ⟨fs, .error .binaryNotFound, true⟩
        | some entry =>
          let fs2 := fs.write output_file_path (.bytes entry.bytes)
          let r := symlinkStep fs2 home_dir bin_name output_file_path
          ⟨r.1, r.2, true⟩
    else
      -- neither suffix: the loop never runs and bin_found stays false
      ⟨fs, .error .binaryNotFound, true⟩

/-- Model of the install command (command_install.rs install, lines
34-297).  The cask formula repository is cloned from
https:(slash slash)name-cask.git into a temp directory (clone outcome is the git
collaborator oracle); the formula is parsed; the OS and architecture
entries are selected; the manifest is generated into the package dir; the
version is selected; the URL template is rendered against the three-field
context; the artifact is downloaded to version-dot-tar-dot-gz; the binary
is extracted; the symlink is published. -/
def install (d : InstallDeps) (package_name : String) (version : Option String)
    (fs0 : FS) : InstallOut :=
  match d.clone with
  | .error _ => ⟨fs0, .error .gitCloneFailed, false⟩
  | .ok none => ⟨fs0, .error .notValidFormula, true⟩
  | .ok (some cask_file_content) =>
    match d.parse cask_file_content with
    | .error _ => ⟨fs0, .error .formulaLoadFailed, false⟩
    | .ok package_formula =>
      if d.hostOS = .other then ⟨fs0, .error .notSupportSystem, true⟩
      else
        match selectTargetI d.hostOS package_formula with
        | none => ⟨fs0, .error .notSupportSystem, false⟩
        | some target =>
          match d.home with
          | none => ⟨fs0, .error .noHomeDir, false⟩
          | some home_dir =>
            -- cask_dir, cask_dir_bin, cask_dir_formula, package_dir of
            -- lines 101-104 are the path helper functions above
            let fs1 := fs0.write (cask_toml_path_of home_dir package_name)
              (.text (caskHeader package_name d.now ++ cask_file_content))
            -- the cloned repository is removed here (line 153)
            match selectArchI d.hostArch target with
            | none => ⟨fs1, .error .notSupportArch, true⟩
            | some arch =>
              match downloadVersionOf version package_formula.package with
              | .error e => ⟨fs1, .error e, true⟩
              | .ok download_version =>
                let tar_file_name := download_version ++ ".tar.gz"
                let tar_file_path := staged_path_of home_dir package_name download_version
                match renderTemplate arch.url
                    (installCtxLookup package_formula.package download_version) with
                | none => ⟨fs1, .error .templateErr, true⟩
                | some rendered_url =>
                  let dl := download (d.http rendered_url) tar_file_path fs1
                  match dl.res with
                  | .error e => ⟨dl.fs, .error (.downloadFailed e), true⟩
                  | .ok () =>
                    let bin_name := binNameOf d.hostOS package_formula.package.bin
                    let output_file_path :=
                      output_bin_path_of home_dir package_name bin_name
                    extractAndPublish d dl.fs tar_file_path tar_file_name
                      bin_name output_file_path home_dir

/-- ASCII lowercasing of a string. -/
def asciiLower (s : String) : String :=
  ⟨s.data.map Char.toLower⟩

/-- Directory part of a slash-separated path: all components but the
last, rejoined with slashes. -/
def dirOfPath (p : String) : String :=
  ⟨List.intercalate ['/'] ((splitChar '/' p.data).dropLast)⟩

/-- Strip leading and trailing slashes. -/
def trimSlashes (s : String) : String :=
  ⟨((s.data.dropWhile (fun c => c = '/')).reverse.dropWhile (fun c => c = '/')).reverse⟩

/-- Modelled from the spec: the directory-prefix match required of an
archive entry by the extractor specification, comparing the entry's
directory against the interior path up to surrounding slashes.  The
install command in this source snapshot has no corresponding code; the
definition follows the claim wording and exists to be compared with the
embedded extraction. -/
def specDirMatch (interior entryDir : String) : Bool :=
  trimSlashes interior = trimSlashes entryDir

/-! ## Claim C5 -/

/-- Fixture: the darwin x86_64 Detailed target of the repository default
configuration (the URL template asserted by the formula.rs test at lines
533-542). -/
def gpmDetail : ResourceTargetDetail :=
  ⟨"\x7bpackage.repository\x7d/releases/download/v\x7bversion\x7d/gpm_darwin_amd64.tar.gz",
   none, none, none⟩

/-- Fixture: the package block of the default configuration (values
asserted by the formula.rs test at lines 496-514). -/
def gpmPackage : Package :=
  ⟨"github.com/axetroy/gpm.rs", "gpm", "https://github.com/axetroy/gpm.rs",
   "A command line tool, manage your hundreds of repository, written with Rust.\n",
   some ["0.1.12", "0.1.11"], none, none, none⟩

/-- Fixture: darwin platform block carrying the x86_64 target. -/
def gpmDarwin : Platform :=
  ⟨none, some (.Detailed gpmDetail), none, none, none, none, none, none, none⟩

/-- Fixture: the default-configuration formula. -/
def gpmFormula : Formula :=
  ⟨"", "", "", none, gpmPackage, none, none, some gpmDarwin, none, none, none⟩

/-- Host darwin x86_64. -/
def hostDarwinX64 : Host := ⟨.macos, .x86_64⟩

/-- Fixture git oracle for the C7 witness. -/
def c7git : GitOracle := ⟨fun _ => true, fun _ => .error ()⟩

/-- Fixture toml oracle for the C7 witness. -/
def c7parse : String → Except Unit ParsedDoc := fun _ => .error ()

/-- Fixture response for the C10 witness: Content-Length three, body five
bytes. -/
def c10resp : HttpResp := ⟨200, some 3, [.ok [1, 2], .ok [3, 4, 5]]⟩

/-! ## Claim C9 -/

/-- Fixture package with a default version set and two listed versions. -/
def c9pkg : IPackage := ⟨"pkg", "gpm", some "0.1.11", ["0.1.12", "0.1.11"]⟩

/-! ## Claim C8 -/

/-- Fixture git oracle whose clone succeeds without a Cask.toml. -/
def c8git : GitOracle := ⟨fun _ => true, fun _ => .ok none⟩

/-! ## Shared concrete install fixtures -/

/-- Fixture platform: one darwin x86_64 entry with a tar.gz asset URL. -/
def wPlat : IPlatform := ⟨none, some ⟨"https://ex.com/tool.tar.gz"⟩, none, none, none, none, none⟩

/-- Fixture formula as read by the install command. -/
def wIF : IFormula := ⟨⟨"pkg", "gpm", none, ["1.0.0"]⟩, some wPlat, none, none⟩

/-- Fixture response: Content-Length two, two one-byte chunks. -/
def wResp : HttpResp := ⟨200, some 2, [.ok [1], .ok [2]]⟩

/-- Fixture install collaborators for a run that succeeds end to end. -/
def wDeps : InstallDeps :=
  ⟨.macos, .x86_64, some "/h", "/tmp", 0, "T",
   .ok (some "content"), fun _ => .ok wIF, fun _ => wResp,
   fun _ => .ok [⟨"gpm", [7]⟩], fun _ => .ok []⟩

/-! ## Claim C1 -/

/-- Fixture checksum: sixty-four zeros, unequal to any SHA-256 digest of
the fixture body. -/
def c1sum : String :=
  "0000000000000000000000000000000000000000000000000000000000000000"

/-- Fixture formula.rs document whose darwin x86_64 target carries the
fixture checksum. -/
def c1FormulaF : Formula :=
  ⟨"", "", "", none, ⟨"pkg", "gpm", "r", "d", some ["1.0.0"], none, none, none⟩, none,
   none,
   some ⟨none, some (.Detailed ⟨"https://ex.com/tool.tar.gz", some c1sum, none, none⟩),
         none, none, none, none, none, none, none⟩,
   none, none, none⟩

/-! ## Claim C2 -/

/-- Fixture initial filesystem in which the publication name is already
taken. -/
def c2fs0 : FS := ⟨[(link_path_of "/h" "gpm", .link "/elsewhere/gpm")]⟩

/-! ## Claim C3 -/

/-- Fixture formula.rs document whose darwin x86_64 target URL ends in
.zip with no explicit extension, so the resolved extension is .zip. -/
def c3FormulaF : Formula :=
  ⟨"", "", "", none, ⟨"pkg", "gpm", "r", "d", some ["1.0.0"], none, none, none⟩, none,
   none,
   some ⟨none, some (.Detailed ⟨"https://ex.com/tool.zip", none, none, none⟩),
         none, none, none, none, none, none, none⟩,
   none, none, none⟩

/-- Fixture install-side formula with the same .zip URL. -/
def c3IF : IFormula :=
  ⟨⟨"pkg", "gpm", none, ["1.0.0"]⟩,
   some ⟨none, some ⟨"https://ex.com/tool.zip"⟩, none, none, none, none, none⟩,
   none, none⟩

/-- Fixture collaborators for the C3 run: the gzip decoder rejects the
zip bytes. -/
def c3deps : InstallDeps :=
  ⟨.macos, .x86_64, some "/h", "/tmp", 0, "T",
   .ok (some "content"), fun _ => .ok c3IF, fun _ => wResp,
   fun _ => .error (), fun _ => .ok []⟩

/-! ## Claim C4 -/

/-- Fixture formula.rs document whose darwin x86_64 target declares the
interior path /inner. -/
def c4FormulaF : Formula :=
  ⟨"", "", "", none, ⟨"pkg", "gpm", "r", "d", some ["1.0.0"], none, none, none⟩, none,
   none,
   some ⟨none,
         some (.Detailed ⟨"https://ex.com/pkg.tar.gz", none, none, some "/inner"⟩),
         none, none, none, none, none, none, none⟩,
   none, none, none⟩

/-- Fixture install-side formula with the same URL. -/
def c4IF : IFormula :=
  ⟨⟨"pkg", "gpm", none, ["1.0.0"]⟩,
   some ⟨none, some ⟨"https://ex.com/pkg.tar.gz"⟩, none, none, none, none, none⟩,
   none, none⟩

/-- Fixture collaborators for the C4 run: the archive holds one entry
other/gpm, outside the declared interior path. -/
def c4deps : InstallDeps :=
  ⟨.macos, .x86_64, some "/h", "/tmp", 0, "T",
   .ok (some "content"), fun _ => .ok c4IF, fun _ => wResp,
   fun _ => .ok [⟨"other/gpm", [9, 9]⟩], fun _ => .ok []⟩

/-! ## Claim C6 -/

/-- Fixture install-side formula whose only version is the marker string
9.9.9z, which occurs nowhere in the cloned manifest content. -/
def c6IF : IFormula := ⟨⟨"pkg", "gpm", none, ["9.9.9z"]⟩, some wPlat, none, none⟩

/-- Fixture collaborators for the C6 run. -/
def c6deps : InstallDeps :=
  ⟨.macos, .x86_64, some "/h", "/tmp", 0, "T",
   .ok (some "content"), fun _ => .ok c6IF, fun _ => wResp,
   fun _ => .ok [⟨"gpm", [7]⟩], fun _ => .ok []⟩

/-! ## Theorems -/

/-- Sanity: SHA-256 of the empty message (FIPS 180-4 test vector). -/
theorem sha256Hex_empty :
    sha256Hex [] = "e3b0c44298fc1c149afbf4c8996fb92427ae41e4649b934ca495991b7852b855" := by
  decide

/-- Sanity: SHA-256 of the three bytes of abc (FIPS 180-4 test vector). -/
theorem sha256Hex_abc :
    sha256Hex (strBytes "abc") = "ba7816bf8f01cfea414140de5dae2223b00361a396177a9cb410ff61f20015ad" := by
  decide

/-- Writing twice at a path keeps the last write. -/
theorem FS.write_write (fs : FS) (p : String) (d d' : FData) :
    (fs.write p d).write p d' = fs.write p d' := by
  simp [FS.write, List.filter_filter]

/-- Reading a freshly written path yields the written entry. -/
theorem FS.get_write_self (fs : FS) (p : String) (d : FData) :
    (fs.write p d).get p = some d := by
  simp [FS.write, FS.get, List.find?]

/-- Auxiliary: find? for another key skips a key filter. -/
theorem find?_filter_ne (l : List (String × FData)) (p q : String) (h : q ≠ p) :
    (l.filter (fun e => decide (e.1 ≠ p))).find? (fun e => decide (e.1 = q))
      = l.find? (fun e => decide (e.1 = q)) := by
  induction l with
  | nil => rfl
  | cons x xs ih =>
    by_cases hxp : x.1 = p
    · have h1 : decide (x.1 ≠ p) = false := by simp [hxp]
      have h2 : decide (x.1 = q) = false := by
        rw [hxp]; exact decide_eq_false (Ne.symm h)
      simp only [List.filter_cons, List.find?_cons, h1, h2, Bool.false_eq_true, if_false]
      exact ih
    · have h1 : decide (x.1 ≠ p) = true := decide_eq_true hxp
      by_cases hxq : x.1 = q
      · have h2 : decide (x.1 = q) = true := decide_eq_true hxq
        simp only [List.filter_cons, List.find?_cons, h1, h2, if_true]
      · have h2 : decide (x.1 = q) = false := decide_eq_false hxq
        simp only [List.filter_cons, List.find?_cons, h1, h2, Bool.false_eq_true, if_true]
        exact ih

/-- Reading another path is unaffected by a write. -/
theorem FS.get_write_ne (fs : FS) (p q : String) (d : FData) (h : q ≠ p) :
    (fs.write p d).get q = fs.get q := by
  have hpq : decide (p = q) = false := decide_eq_false (Ne.symm h)
  simp only [FS.write, FS.get, List.find?_cons, hpq, Bool.false_eq_true, if_false,
    find?_filter_ne fs.files p q h]

/-- The loop with an all-bytes stream: success, the file holds everything
written, other paths are untouched, and every reported position is capped
at the total. -/
theorem dlLoop_joined (filepath : String) (total : Nat)
    (chunks : List (Except Unit (List Nat))) (B : List Nat)
    (hB : chunksJoined chunks = some B) :
    ∀ (fs : FS) (written : List Nat) (downloaded : Nat) (poss : List Nat),
      downloaded ≤ total → (∀ x ∈ poss, x ≤ total) →
      (dlLoop filepath total chunks (fs.write filepath (.bytes written))
        written downloaded poss).res = .ok () ∧
      (dlLoop filepath total chunks (fs.write filepath (.bytes written))
        written downloaded poss).fs = fs.write filepath (.bytes (written ++ B)) ∧
      (∀ x ∈ (dlLoop filepath total chunks (fs.write filepath (.bytes written))
        written downloaded poss).positions, x ≤ total) := by
  induction chunks generalizing B with
  | nil =>
    intro fs written downloaded poss _ hposs
    cases hB
    refine ⟨rfl, by simp [dlLoop], ?_⟩
    intro x hx
    exact hposs x (List.mem_reverse.mp hx)
  | cons c rest ih =>
    intro fs written downloaded poss hdl hposs
    match c with
    | .error e => simp [chunksJoined] at hB
    | .ok chunk =>
      simp only [chunksJoined] at hB
      match hrest : chunksJoined rest with
      | none => rw [hrest] at hB; simp at hB
      | some R =>
        rw [hrest] at hB
        simp at hB
        subst hB
        simp only [dlLoop, FS.write_write]
        have hmin : min (downloaded + chunk.length) total ≤ total := min_le_right _ _
        have h2 := ih R hrest fs (written ++ chunk) (min (downloaded + chunk.length) total)
          (min (downloaded + chunk.length) total :: poss) hmin
          (by
            intro x hx
            cases hx with
            | head => exact hmin
            | tail _ hmem => exact hposs x hmem)
        refine ⟨h2.1, ?_, h2.2.2⟩
        rw [h2.2.1, List.append_assoc]

/-- Download with a 200 response, a Content-Length, and an error-free
stream: success, the file holds the whole body, and other paths keep
their content. -/
theorem download_joined (resp : HttpResp) (filepath : String) (fs : FS) (B : List Nat)
    (h200 : resp.status = 200) (hcl : resp.contentLength ≠ none)
    (hB : chunksJoined resp.chunks = some B) :
    (download resp filepath fs).res = .ok () ∧
    (download resp filepath fs).fs = fs.write filepath (.bytes B) := by
  match hcl2 : resp.contentLength with
  | none => exact absurd hcl2 hcl
  | some total =>
    have h := dlLoop_joined filepath total resp.chunks B hB
      fs [] 0 [] (Nat.zero_le _) (by intro x hx; cases hx)
    simp only [download, h200, hcl2]
    simp only [ne_eq, not_true_eq_false, if_false]
    refine ⟨h.1, ?_⟩
    rw [h.2.1]
    simp

/-- The loop aborts with the chunk read error when the stream contains
one. -/
theorem dlLoop_err (filepath : String) (total : Nat)
    (chunks : List (Except Unit (List Nat))) (hB : chunksJoined chunks = none) :
    ∀ (fs : FS) (written : List Nat) (downloaded : Nat) (poss : List Nat),
      (dlLoop filepath total chunks fs written downloaded poss).res = .error .chunkErr := by
  induction chunks with
  | nil => simp [chunksJoined] at hB
  | cons c rest ih =>
    intro fs written downloaded poss
    match c with
    | .error e => rfl
    | .ok chunk =>
      simp only [chunksJoined] at hB
      match hrest : chunksJoined rest with
      | some R => rw [hrest] at hB; simp at hB
      | none =>
        simp only [dlLoop]
        exact ih hrest _ _ _ _

/-! ## Install run characterization -/

/-- String data distributes over append. -/
theorem strData_append (a b : String) : (a ++ b).data = a.data ++ b.data := rfl

/-- Appending a suffix always yields a string ending with it. -/
theorem endsWithS_append (s t : String) : endsWithS (s ++ t) t = true := by
  have h1 : (s.data ++ t.data).drop ((s.data ++ t.data).length - t.data.length) = t.data := by
    rw [List.length_append, Nat.add_sub_cancel, List.drop_left]
  have h2 : t.data.length ≤ (s.data ++ t.data).length := by
    rw [List.length_append]; exact Nat.le_add_left _ _
  simp [endsWithS, listEndsWith, strData_append, h1, h2]

/-- An install whose stages are all pinned by hypotheses reduces to the
extraction outcome over the explicit write chain: manifest write, staged
artifact write, then either the binary write plus the publication step or
the binary-not-found failure. -/
theorem install_run_eq
    (d : InstallDeps) (package_name : String) (version : Option String) (fs0 : FS)
    (c : String) (F : IFormula) (target : IPlatform) (arch : IArch)
    (home_dir v u : String) (B : List Nat) (es : List TarEntry)
    (h1 : d.clone = .ok (some c))
    (h2 : d.parse c = .ok F)
    (h3 : d.hostOS ≠ .other)
    (h4 : selectTargetI d.hostOS F = some target)
    (h5 : d.home = some home_dir)
    (h6 : selectArchI d.hostArch target = some arch)
    (h7 : downloadVersionOf version F.package = .ok v)
    (h8 : renderTemplate arch.url (installCtxLookup F.package v) = some u)
    (h9 : (d.http u).status = 200)
    (h10 : (d.http u).contentLength ≠ none)
    (h11 : chunksJoined (d.http u).chunks = some B)
    (h12 : d.tarGzEntries B = .ok es) :
    install d package_name version fs0 =
      match firstTarMatch (binNameOf d.hostOS F.package.bin) es with
      | some entry =>
        let fs2 := ((fs0.write (cask_toml_path_of home_dir package_name)
            (.text (caskHeader package_name d.now ++ c))).write
          (staged_path_of home_dir package_name v) (.bytes B)).write
          (output_bin_path_of home_dir package_name (binNameOf d.hostOS F.package.bin))
          (.bytes entry.bytes)
        let r := symlinkStep fs2 home_dir (binNameOf d.hostOS F.package.bin)
          (output_bin_path_of home_dir package_name (binNameOf d.hostOS F.package.bin))
        ⟨r.1, r.2, true⟩
      | none =>
        ⟨(fs0.write (cask_toml_path_of home_dir package_name)
            (.text (caskHeader package_name d.now ++ c))).write
          (staged_path_of home_dir package_name v) (.bytes B),
         .error .binaryNotFound, true⟩ := by
  have hos : (d.hostOS = HostOS.other) = False := eq_false h3
  have hdl := download_joined (d.http u) (staged_path_of home_dir package_name v)
    (fs0.write (cask_toml_path_of home_dir package_name)
      (.text (caskHeader package_name d.now ++ c))) B h9 h10 h11
  simp only [install, h1, h2, hos, if_false, h4, h5, h6, h7, h8,
    hdl.1, hdl.2, extractAndPublish, FS.get_write_self, endsWithS_append, if_true, h12]
  cases firstTarMatch (binNameOf d.hostOS F.package.bin) es <;> rfl

/-- String equality from data equality. -/
theorem strEq_of_data (a b : String) (h : a.data = b.data) : a = b := by
  cases a; cases b; cases h; rfl

/-- The generated manifest splits as a header carrying the package name
and timestamp, a blank line, and the original content verbatim. -/
theorem caskHeader_split (n t c : String) :
    caskHeader n t ++ c
      = (("# The file is generated by Cask. DO NOT MODIFY IT.\n[cask]\npackage_name = \""
          ++ n ++ "\"\ncreated_at = \"") ++ t ++ "\"") ++ "\n\n" ++ c := by
  have hlit : ("\"\n\n" : String).data = ("\"" : String).data ++ ("\n\n" : String).data := rfl
  apply strEq_of_data
  simp [caskHeader, strData_append, hlit, List.append_assoc]

/-- The extraction loop picks exactly the first entry whose basename
equals the binary name. -/
theorem firstTarMatch_eq_find? (bin_name : String) (es : List TarEntry) :
    firstTarMatch bin_name es
      = es.find? (fun e => decide (pathFileName e.path = some bin_name)) := by
  induction es with
  | nil => rfl
  | cons e rest ih =>
    simp only [firstTarMatch, List.find?_cons]
    match hp : pathFileName e.path with
    | some fn =>
      by_cases hfn : fn = bin_name
      · subst hfn
        simp [hp]
      · have : (pathFileName e.path = some bin_name) = False := by
          simp [hp, hfn]
        simp [hfn, this, ih]
    | none =>
      have : (pathFileName e.path = some bin_name) = False := by simp [hp]
      simp [this, ih]

/-- Every progress position reported by the loop is capped at the
total. -/
theorem dlLoop_pos_bound (filepath : String) (total : Nat)
    (chunks : List (Except Unit (List Nat))) :
    ∀ (fs : FS) (written : List Nat) (downloaded : Nat) (poss : List Nat),
      (∀ x ∈ poss, x ≤ total) →
      ∀ x ∈ (dlLoop filepath total chunks fs written downloaded poss).positions, x ≤ total := by
  induction chunks with
  | nil =>
    intro fs written downloaded poss hposs x hx
    exact hposs x (List.mem_reverse.mp hx)
  | cons c rest ih =>
    intro fs written downloaded poss hposs
    match c with
    | .error e =>
      intro x hx
      exact hposs x (List.mem_reverse.mp hx)
    | .ok chunk =>
      simp only [dlLoop]
      refine ih _ _ _ _ ?_
      intro x hx
      cases hx with
      | head => exact min_le_right _ _
      | tail _ hmem => exact hposs x hmem

/-- Download unfolds to the loop once the status and Content-Length
checks pass. -/
theorem download_eq_loop (resp : HttpResp) (filepath : String) (fs : FS) (n : Nat)
    (h200 : resp.status = 200) (hcl : resp.contentLength = some n) :
    download resp filepath fs
      = dlLoop filepath n resp.chunks (fs.write filepath (.bytes [])) [] 0 [] := by
  simp [download, h200, hcl]

/-- Success facts of a pinned install run: the outcome is ok, the clone
directory was removed, and the manifest, staged artifact, canonical
binary and publication link all hold the expected contents. -/
theorem install_success_facts
    (d : InstallDeps) (package_name : String) (version : Option String) (fs0 : FS)
    (c : String) (F : IFormula) (target : IPlatform) (arch : IArch)
    (home_dir v u : String) (B : List Nat) (es : List TarEntry) (entry : TarEntry)
    (h1 : d.clone = .ok (some c))
    (h2 : d.parse c = .ok F)
    (h3 : d.hostOS ≠ .other)
    (h4 : selectTargetI d.hostOS F = some target)
    (h5 : d.home = some home_dir)
    (h6 : selectArchI d.hostArch target = some arch)
    (h7 : downloadVersionOf version F.package = .ok v)
    (h8 : renderTemplate arch.url (installCtxLookup F.package v) = some u)
    (h9 : (d.http u).status = 200)
    (h10 : (d.http u).contentLength ≠ none)
    (h11 : chunksJoined (d.http u).chunks = some B)
    (h12 : d.tarGzEntries B = .ok es)
    (h13 : firstTarMatch (binNameOf d.hostOS F.package.bin) es = some entry)
    (hlink : fs0.get (link_path_of home_dir (binNameOf d.hostOS F.package.bin)) = none)
    (hd1 : link_path_of home_dir (binNameOf d.hostOS F.package.bin)
            ≠ cask_toml_path_of home_dir package_name)
    (hd2 : link_path_of home_dir (binNameOf d.hostOS F.package.bin)
            ≠ staged_path_of home_dir package_name v)
    (hd3 : link_path_of home_dir (binNameOf d.hostOS F.package.bin)
            ≠ output_bin_path_of home_dir package_name (binNameOf d.hostOS F.package.bin))
    (hd4 : cask_toml_path_of home_dir package_name
            ≠ staged_path_of home_dir package_name v)
    (hd5 : cask_toml_path_of home_dir package_name
            ≠ output_bin_path_of home_dir package_name (binNameOf d.hostOS F.package.bin))
    (hd6 : staged_path_of home_dir package_name v
            ≠ output_bin_path_of home_dir package_name (binNameOf d.hostOS F.package.bin)) :
    (install d package_name version fs0).res = .ok () ∧
    (install d package_name version fs0).clonedDirRemoved = true ∧
    (install d package_name version fs0).fs.get (cask_toml_path_of home_dir package_name)
      = some (.text (caskHeader package_name d.now ++ c)) ∧
    (install d package_name version fs0).fs.get (staged_path_of home_dir package_name v)
      = some (.bytes B) ∧
    (install d package_name version fs0).fs.get
        (output_bin_path_of home_dir package_name (binNameOf d.hostOS F.package.bin))
      = some (.bytes entry.bytes) ∧
    (install d package_name version fs0).fs.get
        (link_path_of home_dir (binNameOf d.hostOS F.package.bin))
      = some (.link (output_bin_path_of home_dir package_name
          (binNameOf d.hostOS F.package.bin))) := by
  rw [install_run_eq d package_name version fs0 c F target arch home_dir v u B es
    h1 h2 h3 h4 h5 h6 h7 h8 h9 h10 h11 h12]
  simp only [h13]
  have hfs3link :
      ((((fs0.write (cask_toml_path_of home_dir package_name)
          (.text (caskHeader package_name d.now ++ c))).write
        (staged_path_of home_dir package_name v) (.bytes B)).write
        (output_bin_path_of home_dir package_name (binNameOf d.hostOS F.package.bin))
        (.bytes entry.bytes))).get
        (link_path_of home_dir (binNameOf d.hostOS F.package.bin)) = none := by
    rw [FS.get_write_ne _ _ _ _ hd3, FS.get_write_ne _ _ _ _ hd2,
      FS.get_write_ne _ _ _ _ hd1, hlink]
  simp only [symlinkStep, hfs3link]
  refine ⟨by trivial, by trivial, ?_, ?_, ?_, ?_⟩
  · rw [FS.get_write_ne _ _ _ _ (Ne.symm hd1), FS.get_write_ne _ _ _ _ hd5,
      FS.get_write_ne _ _ _ _ hd4, FS.get_write_self]
  · rw [FS.get_write_ne _ _ _ _ (Ne.symm hd2), FS.get_write_ne _ _ _ _ hd6,
      FS.get_write_self]
  · rw [FS.get_write_ne _ _ _ _ (Ne.symm hd3), FS.get_write_self]
  · rw [FS.get_write_self]

/-- C5: rendering the URL template of a selected ResourceTarget draws on
a context exposing version, the package fields by dotted access, and the
user-defined context map; on the default configuration at version 0.1.12
the darwin x86_64 template renders to exactly the expected release asset
URL. -/
theorem C5_render_url_context :
    (∀ (v : String) (pkg : Package) (m : List (String × String)) (k : String),
      formulaCtxLookup v pkg (some m) ["version"] = some v ∧
      formulaCtxLookup v pkg (some m) ["package", "name"] = some pkg.name ∧
      formulaCtxLookup v pkg (some m) ["package", "bin"] = some pkg.bin ∧
      formulaCtxLookup v pkg (some m) ["package", "repository"] = some pkg.repository ∧
      formulaCtxLookup v pkg (some m) ["package", "description"] = some pkg.description ∧
      formulaCtxLookup v pkg (some m) ["context", k] = lookupPairs k m) ∧
    (Formula.get_current_download_url hostDarwinX64 gpmFormula "0.1.12").map
        DownloadTarget.url
      = .ok "https://github.com/axetroy/gpm.rs/releases/download/v0.1.12/gpm_darwin_amd64.tar.gz" := by
  refine ⟨?_, by decide⟩
  intro v pkg m k
  refine ⟨rfl, rfl, rfl, rfl, rfl, rfl⟩

/-! ## Claim C7 -/

/-- C7: a package identifier that does not parse as a URL and has no
built-in formula is resolved by cloning the repository at
https identifier dot git, exactly as derived by get_formula_git_url. -/
theorem C7_formula_git_url
    (g : GitOracle) (parseToml : String → Except Unit ParsedDoc)
    (buildIn : Except Unit (Option Formula))
    (tmpRoot caskPkgRepoDir : String) (unixTime : Nat) (temp : Bool)
    (package_name : String)
    (hurl : parseUrl? package_name = none)
    (hbi : buildIn = .ok none)
    (hex : g.is_exist (get_formula_git_url package_name) = true) :
    fetch g parseToml buildIn tmpRoot caskPkgRepoDir unixTime temp package_name
      = fetch_with_git_url g parseToml tmpRoot caskPkgRepoDir unixTime temp
          package_name ("https://" ++ package_name ++ ".git") ∧
    get_formula_git_url package_name = "https://" ++ package_name ++ ".git" := by
  refine ⟨?_, rfl⟩
  simp only [fetch, hurl, hbi]
  rw [show ("https://" ++ package_name ++ ".git")
      = get_formula_git_url package_name from rfl]
  simp [hex]

/-- Witness for C7 at the identifier github.com/axetroy/gpm.rs. -/
theorem C7_formula_git_url_witness :
    parseUrl? "github.com/axetroy/gpm.rs" = none ∧
    (Except.ok none : Except Unit (Option Formula)) = .ok none ∧
    c7git.is_exist (get_formula_git_url "github.com/axetroy/gpm.rs") = true ∧
    (fetch c7git c7parse (.ok none) "/tmp" "/r" 7 true "github.com/axetroy/gpm.rs"
       = fetch_with_git_url c7git c7parse "/tmp" "/r" 7 true "github.com/axetroy/gpm.rs"
           ("https://" ++ "github.com/axetroy/gpm.rs" ++ ".git") ∧
     get_formula_git_url "github.com/axetroy/gpm.rs"
       = "https://" ++ "github.com/axetroy/gpm.rs" ++ ".git") :=
  ⟨by decide, rfl, rfl,
   C7_formula_git_url c7git c7parse _ "/tmp" "/r" 7 true _ (by decide) rfl rfl⟩

/-! ## Claim C10 -/

/-- C10: with a 200 status and a present Content-Length, the downloader
succeeds exactly when every stream chunk is read without error; the file
then holds the whole body whatever its length relative to the advertised
total, and the advertised total only caps the reported progress
positions. -/
theorem C10_download_ignores_length
    (resp : HttpResp) (filepath : String) (fs : FS) (n : Nat)
    (h200 : resp.status = 200) (hcl : resp.contentLength = some n) :
    ((download resp filepath fs).res = .ok () ↔ (chunksJoined resp.chunks).isSome = true) ∧
    (∀ B, chunksJoined resp.chunks = some B →
      (download resp filepath fs).fs = fs.write filepath (.bytes B)) ∧
    (∀ x ∈ (download resp filepath fs).positions, x ≤ n) := by
  have hclne : resp.contentLength ≠ none := by rw [hcl]; exact fun h => by cases h
  refine ⟨⟨?_, ?_⟩, ?_, ?_⟩
  · intro hok
    by_contra hns
    have hnone : chunksJoined resp.chunks = none := by
      cases hj : chunksJoined resp.chunks with
      | none => rfl
      | some B => rw [hj] at hns; simp at hns
    rw [download_eq_loop resp filepath fs n h200 hcl,
      dlLoop_err filepath n resp.chunks hnone _ _ _ _] at hok
    cases hok
  · intro hs
    obtain ⟨B, hB⟩ := Option.isSome_iff_exists.mp hs
    exact (download_joined resp filepath fs B h200 hclne hB).1
  · intro B hB
    exact (download_joined resp filepath fs B h200 hclne hB).2
  · rw [download_eq_loop resp filepath fs n h200 hcl]
    exact dlLoop_pos_bound filepath n resp.chunks _ _ _ _ (by intro x hx; cases hx)

/-- Witness for C10: a body longer than the advertised length still
downloads successfully, and the reported positions stay capped. -/
theorem C10_download_ignores_length_witness :
    c10resp.status = 200 ∧ c10resp.contentLength = some 3 ∧
    (((download c10resp "/f" ⟨[]⟩).res = .ok ()
        ↔ (chunksJoined c10resp.chunks).isSome = true) ∧
     (∀ B, chunksJoined c10resp.chunks = some B →
       (download c10resp "/f" ⟨[]⟩).fs = FS.write ⟨[]⟩ "/f" (.bytes B)) ∧
     (∀ x ∈ (download c10resp "/f" ⟨[]⟩).positions, x ≤ 3)) :=
  ⟨rfl, rfl, C10_download_ignores_length c10resp "/f" ⟨[]⟩ 3 rfl rfl⟩

/-- C9 counterexample: with no explicit version requested and non-empty
versions, selection returns the package default version 0.1.11, not the
first listed element 0.1.12. -/
theorem C9_counterexample :
    downloadVersionOf none c9pkg = .ok "0.1.11" ∧
    c9pkg.versions ≠ [] ∧
    c9pkg.versions.headD "" = "0.1.12" ∧
    downloadVersionOf none c9pkg ≠ .ok (c9pkg.versions.headD "") := by
  refine ⟨by decide, by decide, by decide, by decide⟩

/-- C9 amended: when no explicit version is requested and the package
default version is also unset, a non-empty versions list selects its
first element. -/
theorem C9_amended (pkg : IPackage) (h1 : pkg.version = none) (h2 : pkg.versions ≠ []) :
    downloadVersionOf none pkg = .ok (pkg.versions.headD "") := by
  have hne : pkg.versions.isEmpty = false := by
    cases hv : pkg.versions with
    | nil => exact absurd hv h2
    | cons a l => rfl
  simp [downloadVersionOf, h1, hne]

/-- Witness for the amended C9. -/
theorem C9_amended_witness :
    (⟨"p", "b", none, ["2.0", "1.0"]⟩ : IPackage).version = none ∧
    (⟨"p", "b", none, ["2.0", "1.0"]⟩ : IPackage).versions ≠ [] ∧
    downloadVersionOf none ⟨"p", "b", none, ["2.0", "1.0"]⟩
      = .ok ((⟨"p", "b", none, ["2.0", "1.0"]⟩ : IPackage).versions.headD "") :=
  ⟨rfl, by decide, C9_amended _ rfl (by decide)⟩

/-- C8 counterexample: a temp-mode resolver run whose clone succeeds but
contains no Cask.toml fails with the invalid-formula error while the
clone directory is still present at return. -/
theorem C8_counterexample :
    (fetch_with_git_url c8git (fun _ => .error ()) "/tmp" "/r" 9 true "p"
        "https://p.git").res = .error .notValidFormula ∧
    (fetch_with_git_url c8git (fun _ => .error ()) "/tmp" "/r" 9 true "p"
        "https://p.git").cloneDirPresent = true :=
  ⟨rfl, rfl⟩

/-- C8 amended: in temp mode the clone directory survives the resolver
exactly on the clone-succeeded-but-no-Cask.toml path; the load-success
and load-failure paths remove it, and a failed clone creates none. -/
theorem C8_amended (g : GitOracle) (parseToml : String → Except Unit ParsedDoc)
    (tmpRoot caskPkgRepoDir : String) (unixTime : Nat)
    (package_name git_url : String) :
    (fetch_with_git_url g parseToml tmpRoot caskPkgRepoDir unixTime true
        package_name git_url).cloneDirPresent
      = decide (g.cloneResult git_url = .ok none) := by
  cases hc : g.cloneResult git_url with
  | error e => simp [fetch_with_git_url, hc]
  | ok o =>
    cases o with
    | none => simp [fetch_with_git_url, hc]
    | some content =>
      simp only [fetch_with_git_url, hc, if_true]
      cases hp : formula_new parseToml content
          (tmpRoot ++ "/cask_formula_" ++ toString unixTime ++ "/Cask.toml") git_url with
      | ok r => simp [hp]
      | error e => simp [hp]

/-- C1 counterexample: the selected target carries a checksum, the
downloaded bytes hash to a different digest (also after case folding),
yet the install succeeds and the staged file is kept; no ChecksumMismatch
failure occurs. -/
theorem C1_counterexample :
    (Formula.get_current_download_url hostDarwinX64 c1FormulaF "1.0.0").map
        DownloadTarget.checksum = .ok (some c1sum) ∧
    sha256Hex [1, 2] ≠ c1sum ∧
    asciiLower (sha256Hex [1, 2]) ≠ asciiLower c1sum ∧
    (install wDeps "pkg" none ⟨[]⟩).res = .ok () ∧
    (install wDeps "pkg" none ⟨[]⟩).fs.get (staged_path_of "/h" "pkg" "1.0.0")
      = some (.bytes [1, 2]) := by
  refine ⟨by decide, by decide, by decide, by decide, by decide⟩

/-- C1 amended: the install pipeline never computes or compares a digest
of the staged artifact; whenever the stream completes and the other
stages succeed the install returns ok with the staged file holding
exactly the downloaded bytes, irrespective of any checksum the formula
declares. -/
theorem C1_amended
    (d : InstallDeps) (package_name : String) (version : Option String) (fs0 : FS)
    (c : String) (F : IFormula) (target : IPlatform) (arch : IArch)
    (home_dir v u : String) (B : List Nat) (es : List TarEntry) (entry : TarEntry)
    (h1 : d.clone = .ok (some c))
    (h2 : d.parse c = .ok F)
    (h3 : d.hostOS ≠ .other)
    (h4 : selectTargetI d.hostOS F = some target)
    (h5 : d.home = some home_dir)
    (h6 : selectArchI d.hostArch target = some arch)
    (h7 : downloadVersionOf version F.package = .ok v)
    (h8 : renderTemplate arch.url (installCtxLookup F.package v) = some u)
    (h9 : (d.http u).status = 200)
    (h10 : (d.http u).contentLength ≠ none)
    (h11 : chunksJoined (d.http u).chunks = some B)
    (h12 : d.tarGzEntries B = .ok es)
    (h13 : firstTarMatch (binNameOf d.hostOS F.package.bin) es = some entry)
    (hlink : fs0.get (link_path_of home_dir (binNameOf d.hostOS F.package.bin)) = none)
    (hd1 : link_path_of home_dir (binNameOf d.hostOS F.package.bin)
            ≠ cask_toml_path_of home_dir package_name)
    (hd2 : link_path_of home_dir (binNameOf d.hostOS F.package.bin)
            ≠ staged_path_of home_dir package_name v)
    (hd3 : link_path_of home_dir (binNameOf d.hostOS F.package.bin)
            ≠ output_bin_path_of home_dir package_name (binNameOf d.hostOS F.package.bin))
    (hd4 : cask_toml_path_of home_dir package_name
            ≠ staged_path_of home_dir package_name v)
    (hd5 : cask_toml_path_of home_dir package_name
            ≠ output_bin_path_of home_dir package_name (binNameOf d.hostOS F.package.bin))
    (hd6 : staged_path_of home_dir package_name v
            ≠ output_bin_path_of home_dir package_name (binNameOf d.hostOS F.package.bin)) :
    (install d package_name version fs0).res = .ok () ∧
    (install d package_name version fs0).fs.get (staged_path_of home_dir package_name v)
      = some (.bytes B) := by
  obtain ⟨r1, _, _, r4, _, _⟩ := install_success_facts d package_name version fs0
    c F target arch home_dir v u B es entry h1 h2 h3 h4 h5 h6 h7 h8 h9 h10 h11 h12 h13
    hlink hd1 hd2 hd3 hd4 hd5 hd6
  exact ⟨r1, r4⟩

/-- Witness for the amended C1 on the shared fixture run. -/
theorem C1_amended_witness :
    firstTarMatch (binNameOf wDeps.hostOS wIF.package.bin) [⟨"gpm", [7]⟩]
      = some ⟨"gpm", [7]⟩ ∧
    (⟨[]⟩ : FS).get (link_path_of "/h" (binNameOf wDeps.hostOS wIF.package.bin)) = none ∧
    ((install wDeps "pkg" none ⟨[]⟩).res = .ok () ∧
     (install wDeps "pkg" none ⟨[]⟩).fs.get (staged_path_of "/h" "pkg" "1.0.0")
       = some (.bytes [1, 2])) :=
  ⟨by decide, rfl,
   C1_amended wDeps "pkg" none ⟨[]⟩ "content" wIF wPlat ⟨"https://ex.com/tool.tar.gz"⟩
     "/h" "1.0.0" "https://ex.com/tool.tar.gz" [1, 2] [⟨"gpm", [7]⟩] ⟨"gpm", [7]⟩
     rfl rfl (by decide) rfl rfl rfl (by decide) (by decide) rfl (by decide) (by decide)
     rfl (by decide) rfl (by decide) (by decide) (by decide) (by decide) (by decide)
     (by decide)⟩

/-- C2 counterexample: re-publishing over an existing bin entry does not
replace it; the symlink call fails, the install errors, and the old
entry survives untouched. -/
theorem C2_counterexample :
    (install wDeps "pkg" none c2fs0).res = .error .symlinkFailed ∧
    (install wDeps "pkg" none c2fs0).fs.get (link_path_of "/h" "gpm")
      = some (.link "/elsewhere/gpm") ∧
    (install wDeps "pkg" none c2fs0).fs.get (link_path_of "/h" "gpm")
      ≠ some (.link (output_bin_path_of "/h" "pkg" "gpm")) := by
  refine ⟨by decide, by decide, by decide⟩

/-- C2 amended: a re-install over an existing bin entry still overwrites
the stored manifest, the downloaded artifact and the extracted binary,
but the publication step then fails with the symlink error and the
existing entry is left in place rather than replaced. -/
theorem C2_amended
    (d : InstallDeps) (package_name : String) (version : Option String) (fs0 : FS)
    (c : String) (F : IFormula) (target : IPlatform) (arch : IArch)
    (home_dir v u : String) (B : List Nat) (es : List TarEntry) (entry : TarEntry)
    (h1 : d.clone = .ok (some c))
    (h2 : d.parse c = .ok F)
    (h3 : d.hostOS ≠ .other)
    (h4 : selectTargetI d.hostOS F = some target)
    (h5 : d.home = some home_dir)
    (h6 : selectArchI d.hostArch target = some arch)
    (h7 : downloadVersionOf version F.package = .ok v)
    (h8 : renderTemplate arch.url (installCtxLookup F.package v) = some u)
    (h9 : (d.http u).status = 200)
    (h10 : (d.http u).contentLength ≠ none)
    (h11 : chunksJoined (d.http u).chunks = some B)
    (h12 : d.tarGzEntries B = .ok es)
    (h13 : firstTarMatch (binNameOf d.hostOS F.package.bin) es = some entry)
    (hex : (fs0.get (link_path_of home_dir (binNameOf d.hostOS F.package.bin))).isSome
            = true)
    (hd1 : link_path_of home_dir (binNameOf d.hostOS F.package.bin)
            ≠ cask_toml_path_of home_dir package_name)
    (hd2 : link_path_of home_dir (binNameOf d.hostOS F.package.bin)
            ≠ staged_path_of home_dir package_name v)
    (hd3 : link_path_of home_dir (binNameOf d.hostOS F.package.bin)
            ≠ output_bin_path_of home_dir package_name (binNameOf d.hostOS F.package.bin))
    (hd4 : cask_toml_path_of home_dir package_name
            ≠ staged_path_of home_dir package_name v)
    (hd5 : cask_toml_path_of home_dir package_name
            ≠ output_bin_path_of home_dir package_name (binNameOf d.hostOS F.package.bin))
    (hd6 : staged_path_of home_dir package_name v
            ≠ output_bin_path_of home_dir package_name (binNameOf d.hostOS F.package.bin)) :
    (install d package_name version fs0).res = .error .symlinkFailed ∧
    (install d package_name version fs0).fs.get
        (link_path_of home_dir (binNameOf d.hostOS F.package.bin))
      = fs0.get (link_path_of home_dir (binNameOf d.hostOS F.package.bin)) ∧
    (install d package_name version fs0).fs.get (cask_toml_path_of home_dir package_name)
      = some (.text (caskHeader package_name d.now ++ c)) ∧
    (install d package_name version fs0).fs.get (staged_path_of home_dir package_name v)
      = some (.bytes B) ∧
    (install d package_name version fs0).fs.get
        (output_bin_path_of home_dir package_name (binNameOf d.hostOS F.package.bin))
      = some (.bytes entry.bytes) := by
  obtain ⟨d0, hd0⟩ := Option.isSome_iff_exists.mp hex
  rw [install_run_eq d package_name version fs0 c F target arch home_dir v u B es
    h1 h2 h3 h4 h5 h6 h7 h8 h9 h10 h11 h12]
  simp only [h13]
  have hfs3link :
      ((((fs0.write (cask_toml_path_of home_dir package_name)
          (.text (caskHeader package_name d.now ++ c))).write
        (staged_path_of home_dir package_name v) (.bytes B)).write
        (output_bin_path_of home_dir package_name (binNameOf d.hostOS F.package.bin))
        (.bytes entry.bytes))).get
        (link_path_of home_dir (binNameOf d.hostOS F.package.bin)) = some d0 := by
    rw [FS.get_write_ne _ _ _ _ hd3, FS.get_write_ne _ _ _ _ hd2,
      FS.get_write_ne _ _ _ _ hd1, hd0]
  simp only [symlinkStep, hfs3link]
  refine ⟨by trivial, hd0.symm, ?_, ?_, ?_⟩
  · rw [FS.get_write_ne _ _ _ _ hd5, FS.get_write_ne _ _ _ _ hd4, FS.get_write_self]
  · rw [FS.get_write_ne _ _ _ _ hd6, FS.get_write_self]
  · rw [FS.get_write_self]

/-- Witness for the amended C2 on the shared fixture run with an existing
publication entry. -/
theorem C2_amended_witness :
    (c2fs0.get (link_path_of "/h" (binNameOf wDeps.hostOS wIF.package.bin))).isSome
      = true ∧
    firstTarMatch (binNameOf wDeps.hostOS wIF.package.bin) [⟨"gpm", [7]⟩]
      = some ⟨"gpm", [7]⟩ ∧
    ((install wDeps "pkg" none c2fs0).res = .error .symlinkFailed ∧
     (install wDeps "pkg" none c2fs0).fs.get
         (link_path_of "/h" (binNameOf wDeps.hostOS wIF.package.bin))
       = c2fs0.get (link_path_of "/h" (binNameOf wDeps.hostOS wIF.package.bin)) ∧
     (install wDeps "pkg" none c2fs0).fs.get (cask_toml_path_of "/h" "pkg")
       = some (.text (caskHeader "pkg" wDeps.now ++ "content")) ∧
     (install wDeps "pkg" none c2fs0).fs.get (staged_path_of "/h" "pkg" "1.0.0")
       = some (.bytes [1, 2]) ∧
     (install wDeps "pkg" none c2fs0).fs.get
         (output_bin_path_of "/h" "pkg" (binNameOf wDeps.hostOS wIF.package.bin))
       = some (.bytes (⟨"gpm", [7]⟩ : TarEntry).bytes)) :=
  ⟨rfl, by decide,
   C2_amended wDeps "pkg" none c2fs0 "content" wIF wPlat ⟨"https://ex.com/tool.tar.gz"⟩
     "/h" "1.0.0" "https://ex.com/tool.tar.gz" [1, 2] [⟨"gpm", [7]⟩] ⟨"gpm", [7]⟩
     rfl rfl (by decide) rfl rfl rfl (by decide) (by decide) rfl (by decide) (by decide)
     rfl (by decide) rfl (by decide) (by decide) (by decide) (by decide) (by decide)
     (by decide)⟩

/-- C3 counterexample: the resolved extension for the selected target is
.zip, yet the artifact is staged under the hardcoded name
version-dot-tar-dot-gz and no .zip staging path exists. -/
theorem C3_counterexample :
    (Formula.get_current_download_url hostDarwinX64 c3FormulaF "1.0.0").map
        DownloadTarget.ext = .ok ".zip" ∧
    (install c3deps "pkg" none ⟨[]⟩).fs.get
        (package_dir_of "/h" "pkg" ++ "/version/" ++ ("1.0.0" ++ ".zip")) = none ∧
    (install c3deps "pkg" none ⟨[]⟩).fs.get (staged_path_of "/h" "pkg" "1.0.0")
      = some (.bytes [1, 2]) ∧
    endsWithS ("1.0.0" ++ ".tar.gz") ".zip" = false := by
  refine ⟨by decide, by decide, by decide, by decide⟩

/-- C3 amended: for every install that downloads, the artifact is staged
at formula hash version slash version-dot-tar-dot-gz unconditionally (a
name that always ends in .tar.gz), whatever extension the selected target
would resolve to. -/
theorem C3_amended
    (d : InstallDeps) (package_name : String) (version : Option String) (fs0 : FS)
    (c : String) (F : IFormula) (target : IPlatform) (arch : IArch)
    (home_dir v u : String) (B : List Nat) (es : List TarEntry)
    (h1 : d.clone = .ok (some c))
    (h2 : d.parse c = .ok F)
    (h3 : d.hostOS ≠ .other)
    (h4 : selectTargetI d.hostOS F = some target)
    (h5 : d.home = some home_dir)
    (h6 : selectArchI d.hostArch target = some arch)
    (h7 : downloadVersionOf version F.package = .ok v)
    (h8 : renderTemplate arch.url (installCtxLookup F.package v) = some u)
    (h9 : (d.http u).status = 200)
    (h10 : (d.http u).contentLength ≠ none)
    (h11 : chunksJoined (d.http u).chunks = some B)
    (h12 : d.tarGzEntries B = .ok es)
    (hso : staged_path_of home_dir package_name v
            ≠ output_bin_path_of home_dir package_name (binNameOf d.hostOS F.package.bin))
    (hsl : staged_path_of home_dir package_name v
            ≠ link_path_of home_dir (binNameOf d.hostOS F.package.bin)) :
    (install d package_name version fs0).fs.get (staged_path_of home_dir package_name v)
      = some (.bytes B) ∧
    staged_path_of home_dir package_name v
      = package_dir_of home_dir package_name ++ "/version/" ++ (v ++ ".tar.gz") ∧
    endsWithS (v ++ ".tar.gz") ".tar.gz" = true := by
  refine ⟨?_, rfl, endsWithS_append v ".tar.gz"⟩
  rw [install_run_eq d package_name version fs0 c F target arch home_dir v u B es
    h1 h2 h3 h4 h5 h6 h7 h8 h9 h10 h11 h12]
  cases hm : firstTarMatch (binNameOf d.hostOS F.package.bin) es with
  | none => exact FS.get_write_self _ _ _
  | some entry =>
    simp only [symlinkStep]
    cases hl : ((((fs0.write (cask_toml_path_of home_dir package_name)
        (.text (caskHeader package_name d.now ++ c))).write
      (staged_path_of home_dir package_name v) (.bytes B)).write
      (output_bin_path_of home_dir package_name (binNameOf d.hostOS F.package.bin))
      (.bytes entry.bytes))).get
        (link_path_of home_dir (binNameOf d.hostOS F.package.bin)) with
    | some d0 =>
      simp only [hl]
      rw [FS.get_write_ne _ _ _ _ hso, FS.get_write_self]
    | none =>
      simp only [hl]
      rw [FS.get_write_ne _ _ _ _ hsl, FS.get_write_ne _ _ _ _ hso, FS.get_write_self]

/-- Witness for the amended C3 on the shared fixture run. -/
theorem C3_amended_witness :
    chunksJoined (wDeps.http "https://ex.com/tool.tar.gz").chunks = some [1, 2] ∧
    ((install wDeps "pkg" none ⟨[]⟩).fs.get (staged_path_of "/h" "pkg" "1.0.0")
       = some (.bytes [1, 2]) ∧
     staged_path_of "/h" "pkg" "1.0.0"
       = package_dir_of "/h" "pkg" ++ "/version/" ++ ("1.0.0" ++ ".tar.gz") ∧
     endsWithS ("1.0.0" ++ ".tar.gz") ".tar.gz" = true) :=
  ⟨by decide,
   C3_amended wDeps "pkg" none ⟨[]⟩ "content" wIF wPlat ⟨"https://ex.com/tool.tar.gz"⟩
     "/h" "1.0.0" "https://ex.com/tool.tar.gz" [1, 2] [⟨"gpm", [7]⟩]
     rfl rfl (by decide) rfl rfl rfl (by decide) (by decide) rfl (by decide) (by decide)
     rfl (by decide) (by decide)⟩

/-- C4 counterexample: with a non-empty, non-root interior path /inner
and an archive whose only entry other/gpm lies outside it, extraction
still selects that entry by basename alone and the install succeeds
instead of failing with BinaryNotFound. -/
theorem C4_counterexample :
    (Formula.get_current_download_url hostDarwinX64 c4FormulaF "1.0.0").map
        DownloadTarget.path = .ok "/inner" ∧
    "/inner" ≠ "/" ∧ "/inner" ≠ "" ∧
    pathFileName "other/gpm" = some "gpm" ∧
    dirOfPath "other/gpm" = "other" ∧
    specDirMatch "/inner" (dirOfPath "other/gpm") = false ∧
    (install c4deps "pkg" none ⟨[]⟩).res = .ok () ∧
    (install c4deps "pkg" none ⟨[]⟩).fs.get (output_bin_path_of "/h" "pkg" "gpm")
      = some (.bytes [9, 9]) := by
  refine ⟨by decide, by decide, by decide, by decide, by decide, by decide,
    by decide, by decide⟩

/-- C4 amended: extraction selects the first entry whose basename equals
the binary name, ignoring any interior path; the entry bytes are written
to the canonical binary path, and when no basename matches the install
fails with BinaryNotFound and the publication entry is left untouched. -/
theorem C4_amended
    (d : InstallDeps) (package_name : String) (version : Option String) (fs0 : FS)
    (c : String) (F : IFormula) (target : IPlatform) (arch : IArch)
    (home_dir v u : String) (B : List Nat) (es : List TarEntry)
    (h1 : d.clone = .ok (some c))
    (h2 : d.parse c = .ok F)
    (h3 : d.hostOS ≠ .other)
    (h4 : selectTargetI d.hostOS F = some target)
    (h5 : d.home = some home_dir)
    (h6 : selectArchI d.hostArch target = some arch)
    (h7 : downloadVersionOf version F.package = .ok v)
    (h8 : renderTemplate arch.url (installCtxLookup F.package v) = some u)
    (h9 : (d.http u).status = 200)
    (h10 : (d.http u).contentLength ≠ none)
    (h11 : chunksJoined (d.http u).chunks = some B)
    (h12 : d.tarGzEntries B = .ok es)
    (hlc : link_path_of home_dir (binNameOf d.hostOS F.package.bin)
            ≠ cask_toml_path_of home_dir package_name)
    (hls : link_path_of home_dir (binNameOf d.hostOS F.package.bin)
            ≠ staged_path_of home_dir package_name v)
    (hol : output_bin_path_of home_dir package_name (binNameOf d.hostOS F.package.bin)
            ≠ link_path_of home_dir (binNameOf d.hostOS F.package.bin)) :
    (firstTarMatch (binNameOf d.hostOS F.package.bin) es = none →
      (install d package_name version fs0).res = .error .binaryNotFound ∧
      (install d package_name version fs0).fs.get
          (link_path_of home_dir (binNameOf d.hostOS F.package.bin))
        = fs0.get (link_path_of home_dir (binNameOf d.hostOS F.package.bin))) ∧
    (∀ entry, firstTarMatch (binNameOf d.hostOS F.package.bin) es = some entry →
      (install d package_name version fs0).fs.get
          (output_bin_path_of home_dir package_name (binNameOf d.hostOS F.package.bin))
        = some (.bytes entry.bytes)) ∧
    firstTarMatch (binNameOf d.hostOS F.package.bin) es
      = es.find? (fun e => decide (pathFileName e.path
          = some (binNameOf d.hostOS F.package.bin))) := by
  refine ⟨?_, ?_, firstTarMatch_eq_find? _ es⟩
  · intro hm
    rw [install_run_eq d package_name version fs0 c F target arch home_dir v u B es
      h1 h2 h3 h4 h5 h6 h7 h8 h9 h10 h11 h12]
    simp only [hm]
    refine ⟨by trivial, ?_⟩
    rw [FS.get_write_ne _ _ _ _ hls, FS.get_write_ne _ _ _ _ hlc]
  · intro entry hm
    rw [install_run_eq d package_name version fs0 c F target arch home_dir v u B es
      h1 h2 h3 h4 h5 h6 h7 h8 h9 h10 h11 h12]
    simp only [hm, symlinkStep]
    cases hl : ((((fs0.write (cask_toml_path_of home_dir package_name)
        (.text (caskHeader package_name d.now ++ c))).write
      (staged_path_of home_dir package_name v) (.bytes B)).write
      (output_bin_path_of home_dir package_name (binNameOf d.hostOS F.package.bin))
      (.bytes entry.bytes))).get
        (link_path_of home_dir (binNameOf d.hostOS F.package.bin)) with
    | some d0 =>
      simp only [hl]
      rw [FS.get_write_self]
    | none =>
      simp only [hl]
      rw [FS.get_write_ne _ _ _ _ hol, FS.get_write_self]

/-- Witness for the amended C4 on the C4 fixture run. -/
theorem C4_amended_witness :
    c4deps.tarGzEntries [1, 2] = .ok [⟨"other/gpm", [9, 9]⟩] ∧
    ((firstTarMatch (binNameOf c4deps.hostOS c4IF.package.bin) [⟨"other/gpm", [9, 9]⟩]
        = none →
      (install c4deps "pkg" none ⟨[]⟩).res = .error .binaryNotFound ∧
      (install c4deps "pkg" none ⟨[]⟩).fs.get
          (link_path_of "/h" (binNameOf c4deps.hostOS c4IF.package.bin))
        = (⟨[]⟩ : FS).get (link_path_of "/h" (binNameOf c4deps.hostOS c4IF.package.bin))) ∧
     (∀ entry, firstTarMatch (binNameOf c4deps.hostOS c4IF.package.bin)
          [⟨"other/gpm", [9, 9]⟩] = some entry →
      (install c4deps "pkg" none ⟨[]⟩).fs.get
          (output_bin_path_of "/h" "pkg" (binNameOf c4deps.hostOS c4IF.package.bin))
        = some (.bytes entry.bytes)) ∧
     firstTarMatch (binNameOf c4deps.hostOS c4IF.package.bin) [⟨"other/gpm", [9, 9]⟩]
       = List.find? (fun e => decide (pathFileName e.path
           = some (binNameOf c4deps.hostOS c4IF.package.bin))) [⟨"other/gpm", [9, 9]⟩]) :=
  ⟨rfl,
   C4_amended c4deps "pkg" none ⟨[]⟩ "content" c4IF
     ⟨none, some ⟨"https://ex.com/pkg.tar.gz"⟩, none, none, none, none, none⟩
     ⟨"https://ex.com/pkg.tar.gz"⟩ "/h" "1.0.0" "https://ex.com/pkg.tar.gz" [1, 2]
     [⟨"other/gpm", [9, 9]⟩]
     rfl rfl (by decide) rfl rfl rfl (by decide) (by decide) rfl (by decide) (by decide)
     rfl (by decide) (by decide) (by decide)⟩

/-- C6 counterexample: a successful install stores a manifest whose
generated header carries neither the selected version value nor any
version or repository field at all; the header holds only the comment
line, package_name, and created_at. -/
theorem C6_counterexample :
    downloadVersionOf none c6IF.package = .ok "9.9.9z" ∧
    (install c6deps "pkg" none ⟨[]⟩).res = .ok () ∧
    (install c6deps "pkg" none ⟨[]⟩).fs.get (cask_toml_path_of "/h" "pkg")
      = some (.text (caskHeader "pkg" "T" ++ "content")) ∧
    strHasSub (caskHeader "pkg" "T" ++ "content") "9.9.9z" = false ∧
    strHasSub (caskHeader "pkg" "T" ++ "content") "version" = false ∧
    strHasSub (caskHeader "pkg" "T" ++ "content") "repository" = false := by
  refine ⟨by decide, by decide, by decide, by decide, by decide, by decide⟩

/-- C6 amended: for every successful install the stored manifest is the
generated header block carrying package_name and created_at only (with
the fixed leading comment line), then a blank line, then the cloned
manifest content verbatim. -/
theorem C6_amended
    (d : InstallDeps) (package_name : String) (version : Option String) (fs0 : FS)
    (c : String) (F : IFormula) (target : IPlatform) (arch : IArch)
    (home_dir v u : String) (B : List Nat) (es : List TarEntry) (entry : TarEntry)
    (h1 : d.clone = .ok (some c))
    (h2 : d.parse c = .ok F)
    (h3 : d.hostOS ≠ .other)
    (h4 : selectTargetI d.hostOS F = some target)
    (h5 : d.home = some home_dir)
    (h6 : selectArchI d.hostArch target = some arch)
    (h7 : downloadVersionOf version F.package = .ok v)
    (h8 : renderTemplate arch.url (installCtxLookup F.package v) = some u)
    (h9 : (d.http u).status = 200)
    (h10 : (d.http u).contentLength ≠ none)
    (h11 : chunksJoined (d.http u).chunks = some B)
    (h12 : d.tarGzEntries B = .ok es)
    (h13 : firstTarMatch (binNameOf d.hostOS F.package.bin) es = some entry)
    (hlink : fs0.get (link_path_of home_dir (binNameOf d.hostOS F.package.bin)) = none)
    (hd1 : link_path_of home_dir (binNameOf d.hostOS F.package.bin)
            ≠ cask_toml_path_of home_dir package_name)
    (hd2 : link_path_of home_dir (binNameOf d.hostOS F.package.bin)
            ≠ staged_path_of home_dir package_name v)
    (hd3 : link_path_of home_dir (binNameOf d.hostOS F.package.bin)
            ≠ output_bin_path_of home_dir package_name (binNameOf d.hostOS F.package.bin))
    (hd4 : cask_toml_path_of home_dir package_name
            ≠ staged_path_of home_dir package_name v)
    (hd5 : cask_toml_path_of home_dir package_name
            ≠ output_bin_path_of home_dir package_name (binNameOf d.hostOS F.package.bin))
    (hd6 : staged_path_of home_dir package_name v
            ≠ output_bin_path_of home_dir package_name (binNameOf d.hostOS F.package.bin)) :
    (install d package_name version fs0).res = .ok () ∧
    (install d package_name version fs0).fs.get (cask_toml_path_of home_dir package_name)
      = some (.text
          ((("# The file is generated by Cask. DO NOT MODIFY IT.\n[cask]\npackage_name = \""
             ++ package_name ++ "\"\ncreated_at = \"") ++ d.now ++ "\"")
           ++ "\n\n" ++ c)) := by
  obtain ⟨r1, _, r3, _, _, _⟩ := install_success_facts d package_name version fs0
    c F target arch home_dir v u B es entry h1 h2 h3 h4 h5 h6 h7 h8 h9 h10 h11 h12 h13
    hlink hd1 hd2 hd3 hd4 hd5 hd6
  refine ⟨r1, ?_⟩
  rw [r3, caskHeader_split]

/-- Witness for the amended C6 on the C6 fixture run. -/
theorem C6_amended_witness :
    firstTarMatch (binNameOf c6deps.hostOS c6IF.package.bin) [⟨"gpm", [7]⟩]
      = some ⟨"gpm", [7]⟩ ∧
    ((install c6deps "pkg" none ⟨[]⟩).res = .ok () ∧
     (install c6deps "pkg" none ⟨[]⟩).fs.get (cask_toml_path_of "/h" "pkg")
       = some (.text
           ((("# The file is generated by Cask. DO NOT MODIFY IT.\n[cask]\npackage_name = \""
              ++ "pkg" ++ "\"\ncreated_at = \"") ++ c6deps.now ++ "\"")
            ++ "\n\n" ++ "content"))) :=
  ⟨by decide,
   C6_amended c6deps "pkg" none ⟨[]⟩ "content" c6IF wPlat ⟨"https://ex.com/tool.tar.gz"⟩
     "/h" "9.9.9z" "https://ex.com/tool.tar.gz" [1, 2] [⟨"gpm", [7]⟩] ⟨"gpm", [7]⟩
     rfl rfl (by decide) rfl rfl rfl (by decide) (by decide) rfl (by decide) (by decide)
     rfl (by decide) rfl (by decide) (by decide) (by decide) (by decide) (by decide)
     (by decide)⟩
